import Mathlib

/-
Verification of the spotify_project loader against its specification.

The development shallowly embeds the parts of src/spot_load.py and
src/musicbrainz_load.py that the checked properties talk about:

* the sliding-window rate limiter (check_rate_limit, lines 49-94),
* the retrying fetchers (get_info lines 96-131, get_batch_info lines 133-175,
  get_artist_data_batch in musicbrainz_load.py lines 10-60),
* the persisters (dump_tracks, dump_albums, dump_artists, and
  save_artist_data_to_db) over a relational-store model,
* the end-of-pass termination check of the scheduler loop (lines 805-815).

Wall-clock time is modelled by rationals.  Each call to the rate limiter
takes the real time at which the call starts and returns, besides the new
state, the real time at which the call returns (start time plus the base
delay plus all sleeps performed).  Network effects are modelled by oracles
giving the outcome of each attempt.
-/

/-! ## Rate limiter (spot_load.py lines 12-94) -/

def MAX_REQUESTS_PER_30_SEC : ℕ := 40

def MAX_REQUESTS_PER_HOUR : ℕ := 2500

def MAX_REQUESTS_PER_DAY : ℕ := 4500

def base_wait : ℚ := 1/10

/-- The mutable rate-limiter state of spot_load.py: three timestamp deques
and the total request counter. -/
structure RLState where
  halfmin_timestamps : List ℚ
  hourly_timestamps : List ℚ
  daily_timestamps : List ℚ
  total_requests : ℕ

/-- The eviction loop `while l and current_time - l[0] > W: l.popleft()`:
drop from the front while the front entry is older than the window. -/
def dropStale (t W : ℚ) (l : List ℚ) : List ℚ :=
  l.dropWhile (fun ts => decide (W < t - ts))

/-- The sleep performed for one window: when the (already evicted) deque
is at or above cap, sleep `W - (t - oldest)` plus one extra second. -/
def windowWait (t W : ℚ) (cap : ℕ) (l : List ℚ) : ℚ :=
  if cap ≤ l.length then (W - (t - l.headD 0)) + 1 else 0

/-- check_rate_limit (lines 49-94): evict stale timestamps from the three
deques, sleep the base delay, sleep per saturated window, then append the
call start time to every deque and bump the counter.  The second component
is the real time at which the call returns. -/
def check_rate_limit (s : RLState) (t : ℚ) : RLState × ℚ :=
  let hm := dropStale t 30 s.halfmin_timestamps
  let hr := dropStale t 3600 s.hourly_timestamps
  let dy := dropStale t 86400 s.daily_timestamps
  let w1 := windowWait t 30 MAX_REQUESTS_PER_30_SEC hm
  let w2 := windowWait t 3600 MAX_REQUESTS_PER_HOUR hr
  let w3 := windowWait t 86400 MAX_REQUESTS_PER_DAY dy
  (⟨hm ++ [t], hr ++ [t], dy ++ [t], s.total_requests + 1⟩,
   t + base_wait + w1 + w2 + w3)

/-- Reachable limiter states: starting from the fresh empty state, calls
happen one after another, each starting no earlier than the previous call
returned.  The second index is the real time at which the last call
returned. -/
inductive RLReach : RLState → ℚ → Prop
  | init : RLReach ⟨[], [], [], 0⟩ 0
  | step (s : RLState) (e t : ℚ) :
      RLReach s e → e ≤ t →
      RLReach (check_rate_limit s t).1 (check_rate_limit s t).2

/-- Number of recorded timestamps that lie inside a window of duration `W`
when inspected at instant `τ`. -/
def countWithin (τ W : ℚ) (l : List ℚ) : ℕ :=
  (l.filter (fun ts => decide (τ - ts ≤ W))).length

/-- Invariant carried per window: the deque is sorted, all entries are at
most the return time of the last call, and at every instant from that
return time on, the number of in-window entries is at most the cap. -/
structure WindowInv (W : ℚ) (cap : ℕ) (l : List ℚ) (e : ℚ) : Prop where
  sorted : l.Sorted (· ≤ ·)
  bounded : ∀ x ∈ l, x ≤ e
  capped : ∀ τ, e ≤ τ → countWithin τ W l ≤ cap

/-- The three-window invariant of a limiter state: one `WindowInv` per
deque, each with the duration and cap from spot_load.py lines 13-15. -/
def RLInv (s : RLState) (e : ℚ) : Prop :=
  WindowInv 30 MAX_REQUESTS_PER_30_SEC s.halfmin_timestamps e ∧
  WindowInv 3600 MAX_REQUESTS_PER_HOUR s.hourly_timestamps e ∧
  WindowInv 86400 MAX_REQUESTS_PER_DAY s.daily_timestamps e

/-! ## Retrying fetchers (get_info lines 96-131, get_batch_info lines 133-175) -/

/-- Outcome of one HTTP attempt: a parsed success value, an HTTP error
status (with the Retry-After hint, relevant for 429), or a transport-level
error (requests.exceptions.RequestException). -/
inductive FetchOutcome (α : Type) where
  | success (v : α)
  | httpError (status : ℕ) (retryAfter : ℚ)
  | transportError
deriving DecidableEq

/-- The attempt loop shared by get_info (lines 115-131) and get_batch_info
(lines 159-175), run over the list of remaining attempt indices.
Returns the parsed value (`none` models the final `return None`), the
number of attempts actually performed, and the list of sleeps executed in
order.  A 429 with remaining budget sleeps the Retry-After hint and then
the `2 ** attempt` backoff; every other failure sleeps only the backoff.
The loop never returns early on a non-429 HTTP error: that `else` branch
only prints, so control falls through to the backoff sleep and the next
attempt. -/
def attemptLoop {α : Type} (out : ℕ → FetchOutcome α) (retries : ℕ) :
    List ℕ → Option α × ℕ × List ℚ
  | [] => (none, 0, [])
  | i :: rest =>
    match out i with
    | .success v => (some v, 1, [])
    | .httpError st ra =>
      let p := attemptLoop out retries rest
      if st = 429 ∧ i < retries - 1 then (p.1, p.2.1 + 1, ra :: (2:ℚ)^i :: p.2.2)
      else (p.1, p.2.1 + 1, (2:ℚ)^i :: p.2.2)
    | .transportError =>
      let p := attemptLoop out retries rest
      (p.1, p.2.1 + 1, (2:ℚ)^i :: p.2.2)

/-- get_info: run the attempt loop over attempts `0, ..., retries - 1`. -/
def get_info_run {α : Type} (out : ℕ → FetchOutcome α) (retries : ℕ) :
    Option α × ℕ × List ℚ :=
  attemptLoop out retries (List.range retries)

/-- Valid kinds for get_batch_info (line 145). -/
def valid_batch_types : List String := ["track", "album", "artist"]

/-- Per-kind provider maxima (line 152). -/
def max_sizes : String → ℕ
  | "track" => 50
  | "artist" => 50
  | "album" => 20
  | _ => 0

/-- Caller-contract violations raised by get_batch_info before any request. -/
inductive BatchErr where
  | invalidItemType
  | invalidBatchSize
deriving DecidableEq

/-- get_batch_info (lines 133-175): validation happens before any network
side effect, in source order (kind check line 146, empty-list early return
line 149, size check line 153); only then does the rate-limited attempt
loop run.  The triple carries the returned value (`Except.error` models a
raised ValueError), the number of check_rate_limit calls, and the number
of HTTP requests issued; the loop performs exactly one of each per
attempt. -/
def get_batch_info_model {α : Type} (item_type : String) (item_ids : List String)
    (out : ℕ → FetchOutcome α) (retries : ℕ) :
    Except BatchErr (Option α) × ℕ × ℕ :=
  if item_type ∈ valid_batch_types then
    if item_ids.isEmpty then (.ok none, 0, 0)
    else if max_sizes item_type < item_ids.length then (.error .invalidBatchSize, 0, 0)
    else
      let p := attemptLoop out retries (List.range retries)
      (.ok p.1, p.2.1, p.2.1)
  else (.error .invalidItemType, 0, 0)

/-- Folding `n` rate-limiter calls (at start times given by `tms`) over a
limiter state: used to state that zero calls leave the state untouched. -/
def rl_after_calls (s : RLState) (tms : ℕ → ℚ) (n : ℕ) : RLState :=
  (List.range n).foldl (fun st i => (check_rate_limit st (tms i)).1) s

/-- One attempt of get_artist_data_batch: `some v` when the request parses,
`none` for a RequestException. -/
def mbAttemptLoop {α : Type} (out : ℕ → Option α) (jit : ℕ → ℚ) :
    List ℕ → Option α × List ℚ
  | [] => (none, [])
  | i :: rest =>
    match out i with
    | some v => (some v, [])
    | none =>
      let p := mbAttemptLoop out jit rest
      (p.1, ((2:ℚ)^i + jit i) :: p.2)

/-- get_artist_data_batch (musicbrainz_load.py lines 25-60): retry on any
RequestException with a backoff of `2 ** attempt + random.uniform(0, 1)`
(the jitter draw of attempt `i` is the oracle value `jit i`), give up
after the budget and return the empty dict (modelled `none`). -/
def get_artist_data_batch_run {α : Type} (out : ℕ → Option α) (jit : ℕ → ℚ)
    (retries : ℕ) : Option α × List ℚ :=
  mbAttemptLoop out jit (List.range retries)

/-! ## Relational store model and persisters -/

/-- Release-date normalization of dump_albums (lines 558-562): pad a year
or year-month to a full date, keep full dates, raise otherwise. -/
def normalize_release_date (s : String) : Except String String :=
  if s.length = 4 then .ok (s ++ "-01-01")
  else if s.length = 7 then .ok (s ++ "-01")
  else if s.length = 10 then .ok s
  else .error ("Invalid release date: " ++ s)

structure TrackRow where
  id : String
  name : Option String
  album_id : Option String
  duration : Option ℤ
  popularity : Option ℤ
  explicit : Option ℤ
  track_number : Option ℤ
deriving DecidableEq

structure AlbumRow where
  id : String
  name : Option String
  release_date : Option String
  total_tracks : Option ℤ
  label : Option String
  album_type : Option String
  popularity : Option ℤ
deriving DecidableEq

/-- Artist rows.  The deprecated DDL in src/ lacks area_id and
retrieved_albums; those two columns are modelled from the spec (section 6):
area_id nullable, retrieved_albums a flag defaulting to not-retrieved (0). -/
structure ArtistRow where
  id : String
  name : Option String
  popularity : Option ℤ
  followers : Option ℤ
  area_id : Option ℕ
  retrieved_albums : ℕ
deriving DecidableEq

/-- The relational store: entity tables (rows in insertion order, as a
sqlite table scan returns them), autoincrement counters for Genre and
Area, and the three junction tables. -/
structure DB where
  track : List TrackRow
  album : List AlbumRow
  artist : List ArtistRow
  genre : List (ℕ × String)
  genreNextId : ℕ
  area : List (ℕ × String × String)
  areaNextId : ℕ
  trackArtist : List (String × String)
  albumArtist : List (String × String)
  artistGenre : List (String × ℕ)
deriving DecidableEq

def emptyDB : DB := ⟨[], [], [], [], 1, [], 1, [], [], []⟩

def trackPlaceholder (t : String) : TrackRow := ⟨t, none, none, none, none, none, none⟩

def albumPlaceholder (a : String) : AlbumRow := ⟨a, none, none, none, none, none, none⟩

/-- Placeholder Artist row from `INSERT OR IGNORE INTO Artist (id)`:
unlisted columns take their defaults (NULL, and 0 for the stage marker). -/
def artistPlaceholder (a : String) : ArtistRow := ⟨a, none, none, none, none, 0⟩

/-- Row-presence and junction-presence predicates (the WHERE clauses of
the SELECT / conflict checks). -/
def hasTrackId (db : DB) (t : String) : Bool := db.track.any (fun r => r.id == t)

def hasAlbumId (db : DB) (a : String) : Bool := db.album.any (fun r => r.id == a)

def hasArtistId (db : DB) (a : String) : Bool := db.artist.any (fun r => r.id == a)

def hasGenreId (db : DB) (g : ℕ) : Bool := db.genre.any (fun q => q.1 == g)

def hasGenreName (db : DB) (g : String) : Bool := db.genre.any (fun q => q.2 == g)

def hasAreaKey (db : DB) (n ty : String) : Bool :=
  db.area.any (fun q => q.2.1 == n && q.2.2 == ty)

def hasTrackArtist (db : DB) (t a : String) : Bool :=
  db.trackArtist.any (fun q => q.1 == t && q.2 == a)

def hasAlbumArtist (db : DB) (al a : String) : Bool :=
  db.albumArtist.any (fun q => q.1 == al && q.2 == a)

def hasArtistGenre (db : DB) (a : String) (g : ℕ) : Bool :=
  db.artistGenre.any (fun q => q.1 == a && q.2 == g)

/-- SQLite INSERT OR REPLACE keyed by primary key: the conflicting row is
deleted and the fresh row appended. -/
def replaceByKey {α : Type} (p : α → Bool) (x : α) (l : List α) : List α :=
  l.filter (fun y => ! p y) ++ [x]

def insertOrReplaceTrack (db : DB) (r : TrackRow) : DB :=
  { db with track := replaceByKey (fun y => y.id == r.id) r db.track }

def insertOrReplaceAlbum (db : DB) (r : AlbumRow) : DB :=
  { db with album := replaceByKey (fun y => y.id == r.id) r db.album }

def insertOrReplaceArtist (db : DB) (r : ArtistRow) : DB :=
  { db with artist := replaceByKey (fun y => y.id == r.id) r db.artist }

def insertOrIgnoreTrackId (db : DB) (t : String) : DB :=
  if hasTrackId db t then db
  else { db with track := db.track ++ [trackPlaceholder t] }

def insertOrIgnoreAlbumId (db : DB) (a : String) : DB :=
  if hasAlbumId db a then db
  else { db with album := db.album ++ [albumPlaceholder a] }

def insertOrIgnoreArtistId (db : DB) (a : String) : DB :=
  if hasArtistId db a then db
  else { db with artist := db.artist ++ [artistPlaceholder a] }

def insertOrIgnoreTrackArtist (db : DB) (t a : String) : DB :=
  if hasTrackArtist db t a then db
  else { db with trackArtist := db.trackArtist ++ [(t, a)] }

def insertOrIgnoreAlbumArtist (db : DB) (al a : String) : DB :=
  if hasAlbumArtist db al a then db
  else { db with albumArtist := db.albumArtist ++ [(al, a)] }

def insertOrIgnoreArtistGenre (db : DB) (a : String) (g : ℕ) : DB :=
  if hasArtistGenre db a g then db
  else { db with artistGenre := db.artistGenre ++ [(a, g)] }

/-- `INSERT OR IGNORE INTO Genre (name)`: Genre.name is UNIQUE, so the
insert is skipped when the name exists, else a fresh autoincrement id is
assigned. -/
def insertOrIgnoreGenre (db : DB) (g : String) : DB :=
  if hasGenreName db g then db
  else { db with genre := db.genre ++ [(db.genreNextId, g)], genreNextId := db.genreNextId + 1 }

/-- `SELECT id FROM Genre WHERE name = ?` followed by fetchone. -/
def genreIdOf (db : DB) (g : String) : Option ℕ :=
  (db.genre.find? (fun q => q.2 == g)).map (fun q => q.1)

/-- `INSERT OR IGNORE INTO Area (name, type)`.
Modelled from the spec: the Area DDL is external to src/; per spec section
3, Area is deduplicated by its natural key (name, type). -/
def insertOrIgnoreArea (db : DB) (n ty : String) : DB :=
  if hasAreaKey db n ty then db
  else { db with area := db.area ++ [(db.areaNextId, n, ty)], areaNextId := db.areaNextId + 1 }

/-- `SELECT id FROM Area WHERE name = ? AND type = ?` followed by fetchone. -/
def areaIdOf (db : DB) (n ty : String) : Option ℕ :=
  (db.area.find? (fun q => q.2.1 == n && q.2.2 == ty)).map (fun q => q.1)

/-- `UPDATE Artist SET area_id = ? WHERE id = ?`. -/
def updateArtistArea (db : DB) (aid : String) (ar : ℕ) : DB :=
  { db with artist :=
      db.artist.map (fun r => if r.id == aid then { r with area_id := some ar } else r) }

/-- Input record of dump_tracks (the fields it reads, lines 482-489). -/
structure TrackRec where
  id : String
  name : String
  artists : List String
  album_id : String
  duration_ms : ℤ
  popularity : ℤ
  explicit : ℤ
  track_number : ℤ
deriving DecidableEq

/-- Input record of dump_albums (the fields it reads, lines 549-556). -/
structure AlbumRec where
  id : String
  name : String
  artists : List String
  release_date : String
  total_tracks : ℤ
  label : String
  album_type : String
  popularity : ℤ
  track_ids : List String
deriving DecidableEq

/-- Input record of dump_artists (the fields it reads, lines 611-615). -/
structure ArtistRec where
  id : String
  name : String
  popularity : ℤ
  followers : ℤ
  genres : List String
deriving DecidableEq

def trackRowOf (r : TrackRec) : TrackRow :=
  ⟨r.id, some r.name, some r.album_id, some r.duration_ms, some r.popularity,
   some r.explicit, some r.track_number⟩

def albumRowOf (r : AlbumRec) (d : String) : AlbumRow :=
  ⟨r.id, some r.name, some d, some r.total_tracks, some r.label,
   some r.album_type, some r.popularity⟩

/-- `INSERT OR REPLACE INTO Artist (id, name, popularity, followers)`:
columns not in the insert list are reset to their defaults (NULL area_id,
stage marker 0). -/
def artistRowOf (r : ArtistRec) : ArtistRow :=
  ⟨r.id, some r.name, some r.popularity, some r.followers, none, 0⟩

/-- One SQL statement executed by a persister. -/
inductive DBOp where
  | replaceTrack (r : TrackRow)
  | replaceAlbum (r : AlbumRow)
  | replaceArtist (r : ArtistRow)
  | igTrackId (t : String)
  | igAlbumId (a : String)
  | igArtistId (a : String)
  | igTrackArtist (t a : String)
  | igAlbumArtist (al a : String)
  | igGenre (g : String)
  | igArtistGenreByName (a g : String)
deriving DecidableEq

/-- Execute one statement on the store.  `igArtistGenreByName` resolves the
genre id at execution time, as dump_artists does with its SELECT; in the
source a missing row would raise on `fetchone()[0]`, which cannot happen
because the genre is inserted by the statement just before. -/
def applyOp (db : DB) : DBOp → DB
  | .replaceTrack r => insertOrReplaceTrack db r
  | .replaceAlbum r => insertOrReplaceAlbum db r
  | .replaceArtist r => insertOrReplaceArtist db r
  | .igTrackId t => insertOrIgnoreTrackId db t
  | .igAlbumId a => insertOrIgnoreAlbumId db a
  | .igArtistId a => insertOrIgnoreArtistId db a
  | .igTrackArtist t a => insertOrIgnoreTrackArtist db t a
  | .igAlbumArtist al a => insertOrIgnoreAlbumArtist db al a
  | .igGenre g => insertOrIgnoreGenre db g
  | .igArtistGenreByName a g =>
    match genreIdOf db g with
    | some gid => insertOrIgnoreArtistGenre db a gid
    | none => db

/-- The per-artist statements of dump_tracks lines 499-508: the junction
row first, then the artist placeholder. -/
def artistOpsT (tid : String) : List String → List DBOp
  | [] => []
  | a :: rest => .igTrackArtist tid a :: .igArtistId a :: artistOpsT tid rest

/-- Statement trace of dump_tracks (lines 481-515) for one track record. -/
def traceTrack (r : TrackRec) : List DBOp :=
  .replaceTrack (trackRowOf r) :: artistOpsT r.id r.artists ++ [.igAlbumId r.album_id]

/-- The per-artist statements of dump_albums lines 572-581: the junction
row first, then the artist placeholder. -/
def artistOpsA (alid : String) : List String → List DBOp
  | [] => []
  | a :: rest => .igAlbumArtist alid a :: .igArtistId a :: artistOpsA alid rest

/-- Statement trace of dump_albums (lines 548-589) for one album record
whose release date normalized to `d`. -/
def traceAlbum (r : AlbumRec) (d : String) : List DBOp :=
  .replaceAlbum (albumRowOf r d) :: artistOpsA r.id r.artists ++ r.track_ids.map .igTrackId

/-- The per-genre statements of dump_artists lines 626-638: genre row
first, then the junction row. -/
def genreOpsA (aid : String) : List String → List DBOp
  | [] => []
  | g :: rest => .igGenre g :: .igArtistGenreByName aid g :: genreOpsA aid rest

/-- Statement trace of dump_artists (lines 610-638) for one artist record. -/
def traceArtist (r : ArtistRec) : List DBOp :=
  .replaceArtist (artistRowOf r) :: genreOpsA r.id r.genres

def dump_tracks (db : DB) (tracks : List TrackRec) : DB :=
  tracks.foldl (fun d r => (traceTrack r).foldl applyOp d) db

def dump_artists (db : DB) (artists : List ArtistRec) : DB :=
  artists.foldl (fun d r => (traceArtist r).foldl applyOp d) db

/-- dump_albums raises ValueError on a malformed release date (line 562);
the error is modelled by `Except.error`. -/
def dump_albums (db : DB) : List AlbumRec → Except String DB
  | [] => .ok db
  | r :: rest =>
    match normalize_release_date r.release_date with
    | .error e => .error e
    | .ok d => dump_albums ((traceAlbum r d).foldl applyOp db) rest

/-- `fetched_data.get(artist_name, (("Unknown", "Unknown"), ["Unknown"]))`
(musicbrainz_load.py line 67): artist names absent from fetched_data fall
back to the sentinel. -/
def fetched_entry (fetched_data : List (String × ((String × String) × List String)))
    (name : String) : (String × String) × List String :=
  ((fetched_data.find? (fun q => q.1 == name)).map (fun q => q.2)).getD
    (("Unknown", "Unknown"), ["Unknown"])

/-- One iteration of the genre loop of save_artist_data_to_db (lines
82-92): insert the genre if absent, fetch its id, insert the junction row.
The defensive `continue` when the SELECT finds nothing is unreachable
because the genre is inserted just before. -/
def save_genre_step (aid : String) (dd : DB) (g : String) : DB :=
  match genreIdOf (insertOrIgnoreGenre dd g) g with
  | none => insertOrIgnoreGenre dd g
  | some gid => insertOrIgnoreArtistGenre (insertOrIgnoreGenre dd g) aid gid

/-- One iteration of the artist loop of save_artist_data_to_db (lines
66-92): look up the fetched entry (or sentinel), insert the area if
absent, set the artist area_id, then run the genre loop.  The defensive
`continue` when the area SELECT finds nothing is unreachable because the
area is inserted just before. -/
def save_one_artist (fetched_data : List (String × ((String × String) × List String)))
    (d : DB) (p : String × String) : DB :=
  match areaIdOf
      (insertOrIgnoreArea d (fetched_entry fetched_data p.2).1.1
        (fetched_entry fetched_data p.2).1.2)
      (fetched_entry fetched_data p.2).1.1 (fetched_entry fetched_data p.2).1.2 with
  | none =>
    insertOrIgnoreArea d (fetched_entry fetched_data p.2).1.1
      (fetched_entry fetched_data p.2).1.2
  | some aid =>
    (fetched_entry fetched_data p.2).2.foldl (save_genre_step p.1)
      (updateArtistArea
        (insertOrIgnoreArea d (fetched_entry fetched_data p.2).1.1
          (fetched_entry fetched_data p.2).1.2) p.1 aid)

/-- save_artist_data_to_db (musicbrainz_load.py lines 62-92). -/
def save_artist_data_to_db (db : DB) (artist_data : List (String × String))
    (fetched_data : List (String × ((String × String) × List String))) : DB :=
  artist_data.foldl (save_one_artist fetched_data) db

/-- Every Artist row carrying this id has a non-NULL area_id. -/
def artistAreaSetB (db : DB) (aid : String) : Bool :=
  db.artist.all (fun r => !(r.id == aid) || r.area_id.isSome)

/-- Some ArtistGenre edge exists for this artist id. -/
def hasAnyGenreEdge (db : DB) (aid : String) : Bool :=
  db.artistGenre.any (fun q => q.1 == aid)

/-! ## Referential integrity -/

/-- Every junction row references existing parent rows on both sides. -/
def noDanglingB (db : DB) : Bool :=
  db.trackArtist.all (fun q => hasTrackId db q.1 && hasArtistId db q.2) &&
  db.albumArtist.all (fun q => hasAlbumId db q.1 && hasArtistId db q.2) &&
  db.artistGenre.all (fun q => hasArtistId db q.1 && hasGenreId db q.2)

/-- Weakening of `noDanglingB` that does not require the artist side of
TrackArtist and AlbumArtist rows to exist yet. -/
def noDanglingWeakB (db : DB) : Bool :=
  db.trackArtist.all (fun q => hasTrackId db q.1) &&
  db.albumArtist.all (fun q => hasAlbumId db q.1) &&
  db.artistGenre.all (fun q => hasArtistId db q.1 && hasGenreId db q.2)

/-! ## Scheduler end-of-pass check (lines 805-815) -/

/-- `SELECT COUNT(id) FROM Track WHERE name IS NULL` (line 805). -/
def trackNullCount (db : DB) : ℕ := (db.track.filter (fun r => r.name.isNone)).length

/-- `SELECT COUNT(id) FROM Album WHERE name IS NULL` (line 808). -/
def albumNullCount (db : DB) : ℕ := (db.album.filter (fun r => r.name.isNone)).length

/-- `SELECT COUNT(id) FROM Artist WHERE name IS NULL OR retrieved_albums = 0`
(line 811). -/
def artistIncompleteCount (db : DB) : ℕ :=
  (db.artist.filter (fun r => r.name.isNone || r.retrieved_albums == 0)).length

/-- End-of-pass check of the main loop (lines 805-815): `continue` when any
count is positive, otherwise `break` (reach DONE). -/
def passExit (db : DB) : Bool :=
  if 0 < trackNullCount db then false
  else if 0 < albumNullCount db then false
  else if 0 < artistIncompleteCount db then false
  else true

/-- The main `while True` loop viewed at pass granularity: `obs k` is the
store state at the end-of-pass check of pass `k`.  Returns the pass at
which the loop reaches DONE, `none` if it does not do so within `fuel`
passes. -/
def schedulerRun (obs : ℕ → DB) : ℕ → ℕ → Option ℕ
  | _, 0 => none
  | k, fuel + 1 => if passExit (obs k) then some k else schedulerRun obs (k + 1) fuel

/-! ## Concrete inputs for witnesses and counterexamples -/

def tr0 : TrackRec := ⟨"t1", "Song", ["a1"], "al1", 200000, 5, 0, 1⟩

def al0 : AlbumRec := ⟨"al1", "Album", ["a1"], "2001-05", 10, "Label", "album", 7, ["t1", "t2"]⟩

def ar0 : ArtistRec := ⟨"a1", "Artist", 9, 100, ["rock", "pop"]⟩

/-- Store with a single incomplete track row, for the scheduler witness. -/
def dbOneNull : DB := { emptyDB with track := [trackPlaceholder "t1"] }

/-- Pass observations: pass 0 still has an incomplete track, pass 1 is
clean. -/
def obs0 : ℕ → DB := fun k => if k = 0 then dbOneNull else emptyDB

/-- Store holding one named artist row a1, for C9. -/
def dbArtistA1 : DB := { emptyDB with artist := [⟨"a1", some "Name", none, none, none, 0⟩] }

/-- A fetched_data entry with an empty genre list, for the C9
counterexample. -/
def fetched0 : List (String × ((String × String) × List String)) :=
  [("Name", (("X", "City"), []))]

/-- A fetched_data entry with a nonempty genre list, for the C9 witness. -/
def fetched1 : List (String × ((String × String) × List String)) :=
  [("Name", (("X", "City"), ["rock"]))]

/-- Oracle: attempt 0 gets HTTP 404, attempt 1 succeeds. -/
def outHttp404 : ℕ → FetchOutcome ℕ := fun i => if i = 0 then .httpError 404 0 else .success 1

/-- Oracle: every attempt hits a transport error. -/
def outTransport : ℕ → FetchOutcome ℕ := fun _ => .transportError

/-- Oracle: every musicbrainz attempt raises. -/
def outMbFail : ℕ → Option ℕ := fun _ => none

/-! ## C1 helper lemmas -/

lemma dropStale_sublist (t W : ℚ) (l : List ℚ) : List.Sublist (dropStale t W l) l :=
  List.dropWhile_sublist _

lemma sorted_dropStale (t W : ℚ) (l : List ℚ) (h : l.Sorted (· ≤ ·)) :
    (dropStale t W l).Sorted (· ≤ ·) :=
  h.sublist (dropStale_sublist t W l)

lemma mem_dropStale_within (t W : ℚ) :
    ∀ (l : List ℚ), l.Sorted (· ≤ ·) → ∀ x ∈ dropStale t W l, t - x ≤ W := by
  intro l
  induction l with
  | nil => intro _ x hx; simp [dropStale] at hx
  | cons y ys ih =>
    intro hs x hx
    rcases List.sorted_cons.mp hs with ⟨hy, hys⟩
    by_cases hcond : W < t - y
    · rw [dropStale, List.dropWhile_cons] at hx
      simp only [decide_eq_true hcond, if_true] at hx
      exact ih hys x hx
    · rw [dropStale, List.dropWhile_cons] at hx
      simp only [decide_eq_false hcond, if_false] at hx
      rcases List.mem_cons.mp hx with rfl | hx
      · linarith
      · have := hy x hx
        linarith

lemma length_dropStale_le_count (t W : ℚ) (l : List ℚ) (h : l.Sorted (· ≤ ·)) :
    (dropStale t W l).length ≤ countWithin t W l := by
  have hmem : ∀ x ∈ dropStale t W l, (fun ts => decide (t - ts ≤ W)) x = true := by
    intro x hx
    simpa using mem_dropStale_within t W l h x hx
  have h1 : (dropStale t W l).filter (fun ts => decide (t - ts ≤ W)) = dropStale t W l :=
    List.filter_eq_self.mpr hmem
  have h2 := ((dropStale_sublist t W l).filter (fun ts => decide (t - ts ≤ W))).length_le
  rw [h1] at h2
  exact h2

lemma countWithin_append (τ W : ℚ) (l l' : List ℚ) :
    countWithin τ W (l ++ l') = countWithin τ W l + countWithin τ W l' := by
  simp [countWithin, List.filter_append]

lemma countWithin_le_length (τ W : ℚ) (l : List ℚ) : countWithin τ W l ≤ l.length :=
  l.length_filter_le _

lemma countWithin_cons_stale (τ W o : ℚ) (tl : List ℚ) (h : W < τ - o) :
    countWithin τ W (o :: tl) = countWithin τ W tl := by
  unfold countWithin
  simp only [List.filter_cons, decide_eq_false (not_le.mpr h), Bool.false_eq_true, if_false]

lemma windowWait_nonneg (t W : ℚ) (cap : ℕ) (hcap : 1 ≤ cap) (l : List ℚ)
    (hl : ∀ x ∈ l, t - x ≤ W) : 0 ≤ windowWait t W cap l := by
  cases l with
  | nil => simp [windowWait, show ¬ cap ≤ 0 by omega]
  | cons o tl =>
    by_cases hlen : cap ≤ (o :: tl).length
    · have ho : t - o ≤ W := hl o (List.mem_cons_self o tl)
      simp only [windowWait, hlen, if_true, List.headD_cons]
      linarith
    · unfold windowWait
      rw [if_neg hlen]

lemma windowInv_step (W : ℚ) (cap : ℕ) (hcap : 1 ≤ cap) (l : List ℚ) (e t a : ℚ)
    (inv : WindowInv W cap l e) (het : e ≤ t)
    (ha : t + windowWait t W cap (dropStale t W l) ≤ a) :
    WindowInv W cap (dropStale t W l ++ [t]) a := by
  have hEsub := dropStale_sublist t W l
  have hEsorted : (dropStale t W l).Sorted (· ≤ ·) := sorted_dropStale t W l inv.sorted
  have hEwithin : ∀ x ∈ dropStale t W l, t - x ≤ W := mem_dropStale_within t W l inv.sorted
  have hEbound : ∀ x ∈ dropStale t W l, x ≤ t :=
    fun x hx => le_trans (inv.bounded x (hEsub.subset hx)) het
  have hw0 : 0 ≤ windowWait t W cap (dropStale t W l) :=
    windowWait_nonneg t W cap hcap _ hEwithin
  have hta : t ≤ a := by linarith
  refine ⟨?_, ?_, ?_⟩
  · refine List.pairwise_append.mpr ⟨hEsorted, List.sorted_singleton t, ?_⟩
    intro x hx b hb
    rcases List.mem_singleton.mp hb with rfl
    exact hEbound x hx
  · intro x hx
    rcases List.mem_append.mp hx with hx | hx
    · exact le_trans (hEbound x hx) hta
    · rcases List.mem_singleton.mp hx with rfl
      exact hta
  · intro τ hτ
    rw [countWithin_append]
    have h4 : countWithin τ W [t] ≤ 1 := by
      simpa using countWithin_le_length τ W [t]
    by_cases hlen : cap ≤ (dropStale t W l).length
    · rcases hoE : dropStale t W l with _ | ⟨o, tl⟩
      · rw [hoE] at hlen
        simp at hlen
        omega
      · rw [hoE] at hlen ha
        have hwdef : windowWait t W cap (o :: tl) = (W - (t - o)) + 1 := by
          simp only [windowWait, hlen, if_true, List.headD_cons]
        have hao : o + W + 1 ≤ a := by
          rw [hwdef] at ha
          linarith
        have hstale : W < τ - o := by linarith
        rw [countWithin_cons_stale τ W o tl hstale]
        have h1 : countWithin τ W tl ≤ tl.length := countWithin_le_length τ W tl
        have h2 : (o :: tl).length ≤ countWithin t W l := by
          rw [← hoE]
          exact length_dropStale_le_count t W l inv.sorted
        have h3 : countWithin t W l ≤ cap := inv.capped t het
        simp only [List.length_cons] at h2
        omega
    · have h1 : countWithin τ W (dropStale t W l) ≤ (dropStale t W l).length :=
        countWithin_le_length τ W _
      omega

lemma windowInv_empty (W : ℚ) (cap : ℕ) : WindowInv W cap [] 0 :=
  ⟨List.sorted_nil, by simp, by intro τ _; simp [countWithin]⟩

lemma rlReach_inv (s : RLState) (e : ℚ) (h : RLReach s e) : RLInv s e := by
  induction h with
  | init => exact ⟨windowInv_empty _ _, windowInv_empty _ _, windowInv_empty _ _⟩
  | step s' e' t hre het ih =>
    obtain ⟨i1, i2, i3⟩ := ih
    have hw1 : 0 ≤ windowWait t 30 MAX_REQUESTS_PER_30_SEC (dropStale t 30 s'.halfmin_timestamps) :=
      windowWait_nonneg _ _ _ (by norm_num [MAX_REQUESTS_PER_30_SEC]) _
        (mem_dropStale_within _ _ _ i1.sorted)
    have hw2 : 0 ≤ windowWait t 3600 MAX_REQUESTS_PER_HOUR (dropStale t 3600 s'.hourly_timestamps) :=
      windowWait_nonneg _ _ _ (by norm_num [MAX_REQUESTS_PER_HOUR]) _
        (mem_dropStale_within _ _ _ i2.sorted)
    have hw3 : 0 ≤ windowWait t 86400 MAX_REQUESTS_PER_DAY (dropStale t 86400 s'.daily_timestamps) :=
      windowWait_nonneg _ _ _ (by norm_num [MAX_REQUESTS_PER_DAY]) _
        (mem_dropStale_within _ _ _ i3.sorted)
    have hbw : (0:ℚ) ≤ base_wait := by norm_num [base_wait]
    refine ⟨?_, ?_, ?_⟩
    · exact windowInv_step 30 MAX_REQUESTS_PER_30_SEC (by norm_num [MAX_REQUESTS_PER_30_SEC])
        s'.halfmin_timestamps e' t _ i1 het (by simp only [check_rate_limit]; linarith)
    · exact windowInv_step 3600 MAX_REQUESTS_PER_HOUR (by norm_num [MAX_REQUESTS_PER_HOUR])
        s'.hourly_timestamps e' t _ i2 het (by simp only [check_rate_limit]; linarith)
    · exact windowInv_step 86400 MAX_REQUESTS_PER_DAY (by norm_num [MAX_REQUESTS_PER_DAY])
        s'.daily_timestamps e' t _ i3 het (by simp only [check_rate_limit]; linarith)

/-! ## Claim C1 -/

/-- Claim C1: for every sequence of calls to the rate limiter
(check_rate_limit), at every instant from the return of the last call on,
the number of recorded request timestamps lying within any window
duration (30 s, 1 h, 24 h) never exceeds that window cap
(40, 2500, 4500). -/
theorem C1_rate_limit_window_caps (s : RLState) (e : ℚ) (h : RLReach s e)
    (τ : ℚ) (hτ : e ≤ τ) :
    countWithin τ 30 s.halfmin_timestamps ≤ 40 ∧
    countWithin τ 3600 s.hourly_timestamps ≤ 2500 ∧
    countWithin τ 86400 s.daily_timestamps ≤ 4500 :=
  ⟨(rlReach_inv s e h).1.capped τ hτ, (rlReach_inv s e h).2.1.capped τ hτ,
   (rlReach_inv s e h).2.2.capped τ hτ⟩

/-- Witness for C1 at the state reached by one call at time 0, inspected
at the instant that call returns. -/
theorem C1_rate_limit_window_caps_witness :
    countWithin (check_rate_limit ⟨[], [], [], 0⟩ 0).2 30
        (check_rate_limit ⟨[], [], [], 0⟩ 0).1.halfmin_timestamps ≤ 40 ∧
    countWithin (check_rate_limit ⟨[], [], [], 0⟩ 0).2 3600
        (check_rate_limit ⟨[], [], [], 0⟩ 0).1.hourly_timestamps ≤ 2500 ∧
    countWithin (check_rate_limit ⟨[], [], [], 0⟩ 0).2 86400
        (check_rate_limit ⟨[], [], [], 0⟩ 0).1.daily_timestamps ≤ 4500 :=
  C1_rate_limit_window_caps _ _ (RLReach.step _ _ _ RLReach.init le_rfl) _ le_rfl

/-! ## Claim C2 -/

lemma passExit_eq_true_iff (db : DB) :
    passExit db = true ↔
      trackNullCount db = 0 ∧ albumNullCount db = 0 ∧ artistIncompleteCount db = 0 := by
  unfold passExit
  split_ifs with h1 h2 h3 <;> simp <;> omega

/-- Claim C2: the scheduler main loop reaches DONE at pass k' only when
the Track NULL-name count, the Album NULL-name count, and the Artist
incomplete count (NULL name or retrieved_albums = 0) observed at that
same pass are all simultaneously zero; every earlier pass whose check saw
any nonzero count re-entered the cycle instead of exiting. -/
theorem C2_scheduler_done_only_when_clean (obs : ℕ → DB) (fuel : ℕ) :
    ∀ (k k' : ℕ), schedulerRun obs k fuel = some k' →
    trackNullCount (obs k') = 0 ∧ albumNullCount (obs k') = 0 ∧
    artistIncompleteCount (obs k') = 0 ∧
    ∀ j, k ≤ j → j < k' → passExit (obs j) = false := by
  induction fuel with
  | zero => intro k k' h; simp [schedulerRun] at h
  | succ n ih =>
    intro k k' h
    rw [schedulerRun] at h
    by_cases hp : passExit (obs k) = true
    · rw [if_pos hp] at h
      obtain rfl : k = k' := by simpa using h
      obtain ⟨h1, h2, h3⟩ := (passExit_eq_true_iff (obs k)).mp hp
      exact ⟨h1, h2, h3, fun j hj1 hj2 => absurd (lt_of_le_of_lt hj1 hj2) (lt_irrefl k)⟩
    · rw [if_neg hp] at h
      obtain ⟨h1, h2, h3, h4⟩ := ih (k + 1) k' h
      refine ⟨h1, h2, h3, fun j hj1 hj2 => ?_⟩
      rcases Nat.eq_or_lt_of_le hj1 with rfl | hj1'
      · exact Bool.not_eq_true _ ▸ eq_false_of_ne_true hp
      · exact h4 j hj1' hj2

/-- Witness for C2: with pass 0 still holding an incomplete track and pass
1 clean, the loop exits at pass 1, where all three counts are zero. -/
theorem C2_scheduler_witness :
    trackNullCount (obs0 1) = 0 ∧ albumNullCount (obs0 1) = 0 ∧
    artistIncompleteCount (obs0 1) = 0 := by
  have h := C2_scheduler_done_only_when_clean obs0 2 0 1 (by decide)
  exact ⟨h.1, h.2.1, h.2.2.1⟩

/-! ## Claims C5 and C6: retry behaviour of the fetchers -/

lemma attemptLoop_no_success {α : Type} (out : ℕ → FetchOutcome α) (retries : ℕ) :
    ∀ l : List ℕ, (∀ i ∈ l, ∀ v : α, out i ≠ .success v) →
      (attemptLoop out retries l).1 = none ∧ (attemptLoop out retries l).2.1 = l.length := by
  intro l
  induction l with
  | nil => intro _; exact ⟨rfl, rfl⟩
  | cons i rest ih =>
    intro h
    have ih' := ih (fun j hj v => h j (List.mem_cons_of_mem i hj) v)
    rw [attemptLoop]
    cases hout : out i with
    | success v => exact absurd hout (h i (List.mem_cons_self i rest) v)
    | httpError st ra =>
      by_cases hc : st = 429 ∧ i < retries - 1
      · simp only [if_pos hc]
        exact ⟨ih'.1, by simp [ih'.2]⟩
      · simp only [if_neg hc]
        exact ⟨ih'.1, by simp [ih'.2]⟩
    | transportError =>
      exact ⟨ih'.1, by simp [ih'.2]⟩

lemma attemptLoop_all_transport {α : Type} (out : ℕ → FetchOutcome α) (retries : ℕ) :
    ∀ l : List ℕ, (∀ i ∈ l, out i = .transportError) →
      attemptLoop out retries l = (none, l.length, l.map (fun i => (2:ℚ)^i)) := by
  intro l
  induction l with
  | nil => intro _; rfl
  | cons i rest ih =>
    intro h
    rw [attemptLoop, h i (List.mem_cons_self i rest),
      ih (fun j hj => h j (List.mem_cons_of_mem i hj))]
    simp

lemma mbAttemptLoop_all_fail {α : Type} (out : ℕ → Option α) (jit : ℕ → ℚ) :
    ∀ l : List ℕ, (∀ i ∈ l, out i = none) →
      mbAttemptLoop out jit l = (none, l.map (fun i => (2:ℚ)^i + jit i)) := by
  intro l
  induction l with
  | nil => intro _; rfl
  | cons i rest ih =>
    intro h
    rw [mbAttemptLoop, h i (List.mem_cons_self i rest),
      ih (fun j hj => h j (List.mem_cons_of_mem i hj))]
    simp

/-- Counterexample to claim C5: get_info receives HTTP 404 (not 429) on
its first attempt, yet performs a second attempt, which succeeds — the
call is neither abandoned immediately nor does it yield an empty result. -/
theorem C5_counterexample :
    outHttp404 0 = .httpError 404 0 ∧
    (get_info_run outHttp404 3).1 = some 1 ∧
    (get_info_run outHttp404 3).2.1 = 2 := by
  refine ⟨by decide, by decide, by decide⟩

/-- Claim C5 amended: in the shared attempt loop of get_info and
get_batch_info, an HTTP error with a status other than 429 does not
abandon the call: the failed attempt consumes one unit of budget, sleeps
the 2 ** attempt backoff, and the loop continues with the remaining
attempts, whose result becomes the overall result; only when every
attempt fails does the fetch return the empty result None, after using
the whole budget. -/
theorem C5_amended_http_error_retries {α : Type} :
    (∀ (out : ℕ → FetchOutcome α) (retries st : ℕ) (ra : ℚ) (i : ℕ) (rest : List ℕ),
      out i = .httpError st ra → st ≠ 429 →
      (attemptLoop out retries (i :: rest)).1 = (attemptLoop out retries rest).1 ∧
      (attemptLoop out retries (i :: rest)).2.1 = (attemptLoop out retries rest).2.1 + 1 ∧
      (attemptLoop out retries (i :: rest)).2.2 =
        (2:ℚ)^i :: (attemptLoop out retries rest).2.2) ∧
    (∀ (out : ℕ → FetchOutcome α) (retries : ℕ),
      (∀ i, ∀ v : α, out i ≠ .success v) →
      (get_info_run out retries).1 = none ∧ (get_info_run out retries).2.1 = retries) := by
  constructor
  · intro out retries st ra i rest hout hst
    have hc : ¬(st = 429 ∧ i < retries - 1) := fun hh => hst hh.1
    refine ⟨?_, ?_, ?_⟩ <;> simp [attemptLoop, hout, hc]
  · intro out retries h
    have := attemptLoop_no_success out retries (List.range retries) (fun i _ v => h i v)
    rw [List.length_range] at this
    exact this

/-- Witness for the amended C5: a 404 on attempt 0 out of 3 continues into
the remaining attempts, and an all-transport-failure run returns None. -/
theorem C5_amended_witness :
    (attemptLoop outHttp404 3 (0 :: [1, 2])).1 = (attemptLoop outHttp404 3 [1, 2]).1 ∧
    (get_info_run outTransport 3).1 = none := by
  constructor
  · exact (C5_amended_http_error_retries.1 outHttp404 3 404 0 0 [1, 2] rfl (by decide)).1
  · exact (C5_amended_http_error_retries.2 outTransport 3 (fun i v => by simp [outTransport])).1

/-- Counterexample to claim C6: with every attempt failing at transport
level, get_info sleeps exactly 2 ** attempt seconds; the sleep sequence is
independent of any jitter draw, so the claimed shape
`2 ** attempt + uniform(0, 1) draw` fails for the constant draw 1/2. -/
theorem C6_counterexample :
    ¬ ∀ jit : ℕ → ℚ, (get_info_run outTransport 2).2.2 =
        [(2:ℚ)^0 + jit 0, (2:ℚ)^1 + jit 1] := by
  intro h
  have h2 := h (fun _ => 1/2)
  have hr : List.range 2 = [0, 1] := rfl
  have h1 : (get_info_run outTransport 2).2.2 = [(2:ℚ)^0, (2:ℚ)^1] := by
    rw [get_info_run, hr, attemptLoop_all_transport outTransport 2 [0, 1] (fun i _ => rfl)]
    rfl
  rw [h1] at h2
  norm_num at h2

/-- Claim C6 amended: on transport-level errors the musicbrainz fetcher
get_artist_data_batch waits 2 ** attempt plus the uniform(0, 1) jitter
draw per failed attempt and returns the empty result after its budget,
while the spotify attempt loop (get_info, get_batch_info) waits exactly
2 ** attempt with no jitter term and returns None after its budget;
neither raises. -/
theorem C6_amended_backoff {α : Type} :
    (∀ (out : ℕ → Option α) (jit : ℕ → ℚ) (retries : ℕ), (∀ i, out i = none) →
      get_artist_data_batch_run out jit retries =
        (none, (List.range retries).map (fun i => (2:ℚ)^i + jit i))) ∧
    (∀ (out : ℕ → FetchOutcome α) (retries : ℕ), (∀ i, out i = .transportError) →
      get_info_run out retries =
        (none, retries, (List.range retries).map (fun i => (2:ℚ)^i))) := by
  constructor
  · intro out jit retries h
    exact mbAttemptLoop_all_fail out jit (List.range retries) (fun i _ => h i)
  · intro out retries h
    have h1 := attemptLoop_all_transport out retries (List.range retries) (fun i _ => h i)
    rw [get_info_run, h1, List.length_range]

/-- Witness for the amended C6 at budget 2 with constant jitter 1/2. -/
theorem C6_amended_witness :
    get_artist_data_batch_run outMbFail (fun _ => (1:ℚ)/2) 2 =
      (none, (List.range 2).map (fun i => (2:ℚ)^i + (1:ℚ)/2)) ∧
    get_info_run outTransport 2 = (none, 2, (List.range 2).map (fun i => (2:ℚ)^i)) := by
  constructor
  · exact C6_amended_backoff.1 outMbFail (fun _ => (1:ℚ)/2) 2 (fun i => rfl)
  · exact C6_amended_backoff.2 outTransport 2 (fun i => rfl)

/-! ## Claim C7 -/

/-- Claim C7: release-date normalization maps a length-4 input s to
s ++ "-01-01", a length-7 input to s ++ "-01", keeps length-10 inputs
unchanged, and fails with the invalid-release-date error on every input
of any other length. -/
theorem C7_release_date_normalization :
    (∀ s : String, s.length = 4 → normalize_release_date s = .ok (s ++ "-01-01")) ∧
    (∀ s : String, s.length = 7 → normalize_release_date s = .ok (s ++ "-01")) ∧
    (∀ s : String, s.length = 10 → normalize_release_date s = .ok s) ∧
    (∀ s : String, s.length ≠ 4 → s.length ≠ 7 → s.length ≠ 10 →
      normalize_release_date s = .error ("Invalid release date: " ++ s)) := by
  refine ⟨?_, ?_, ?_, ?_⟩ <;> intro s <;> intros <;> simp [normalize_release_date, *]

/-- Witness for C7 on the four sample inputs of the claim. -/
theorem C7_release_date_witness :
    normalize_release_date "2001" = .ok "2001-01-01" ∧
    normalize_release_date "2001-05" = .ok "2001-05-01" ∧
    normalize_release_date "2001-05-17" = .ok "2001-05-17" ∧
    normalize_release_date "123" = .error ("Invalid release date: " ++ "123") := by
  refine ⟨?_, ?_, ?_, ?_⟩
  · exact (C7_release_date_normalization.1 "2001" rfl).trans (congrArg Except.ok rfl)
  · exact (C7_release_date_normalization.2.1 "2001-05" rfl).trans (congrArg Except.ok rfl)
  · exact C7_release_date_normalization.2.2.1 "2001-05-17" rfl
  · exact C7_release_date_normalization.2.2.2 "123" (by decide) (by decide) (by decide)

/-! ## Claims C8 and C10 -/

/-- Claim C8: get_batch_info fails fast with a caller-contract-violation
error, before any HTTP request and before any rate-limiter call, whenever
the item kind is not track/album/artist or the id list exceeds the
per-kind provider maximum; an oversized batch is never truncated and
processed. -/
theorem C8_batch_validation_fails_fast {α : Type} (item_type : String)
    (item_ids : List String) (out : ℕ → FetchOutcome α) (retries : ℕ)
    (h : item_type ∉ valid_batch_types ∨ max_sizes item_type < item_ids.length) :
    (∃ e, (get_batch_info_model item_type item_ids out retries).1 = .error e) ∧
    (get_batch_info_model item_type item_ids out retries).2.1 = 0 ∧
    (get_batch_info_model item_type item_ids out retries).2.2 = 0 := by
  simp only [get_batch_info_model]
  split_ifs with h1 h2 h3
  · exfalso
    rcases h with h | h
    · exact h h1
    · rw [List.isEmpty_iff] at h2
      rw [h2] at h
      simp at h
  · exact ⟨⟨_, rfl⟩, rfl, rfl⟩
  · exfalso
    rcases h with h | h
    · exact h h1
    · exact h3 h
  · exact ⟨⟨_, rfl⟩, rfl, rfl⟩

/-- Witness for C8: an album batch of 21 ids (maximum 20) is rejected with
no request issued. -/
theorem C8_batch_validation_witness :
    (∃ e, (get_batch_info_model "album" (List.replicate 21 "x") outTransport 3).1 = .error e) ∧
    (get_batch_info_model "album" (List.replicate 21 "x") outTransport 3).2.1 = 0 ∧
    (get_batch_info_model "album" (List.replicate 21 "x") outTransport 3).2.2 = 0 :=
  C8_batch_validation_fails_fast "album" (List.replicate 21 "x") outTransport 3
    (Or.inr (by decide))

/-- Claim C10: for every valid item kind, get_batch_info with an empty id
list returns None without issuing any HTTP request and without calling
check_rate_limit, hence without recording a timestamp or incrementing the
total-request counter: folding its (zero) limiter calls over any limiter
state leaves that state unchanged. -/
theorem C10_empty_batch_no_request {α : Type} (item_type : String)
    (out : ℕ → FetchOutcome α) (retries : ℕ) (h : item_type ∈ valid_batch_types) :
    get_batch_info_model item_type [] out retries = (.ok none, 0, 0) ∧
    ∀ (s : RLState) (tms : ℕ → ℚ),
      rl_after_calls s tms (get_batch_info_model item_type [] out retries).2.1 = s := by
  have h1 : get_batch_info_model item_type ([] : List String) out retries =
      ((.ok none : Except BatchErr (Option α)), 0, 0) := by
    simp [get_batch_info_model, h]
  exact ⟨h1, fun s tms => by rw [h1]; rfl⟩

/-- Witness for C10 with kind track. -/
theorem C10_empty_batch_witness :
    get_batch_info_model "track" [] outTransport 3 = (.ok none, 0, 0) ∧
    rl_after_calls ⟨[], [], [], 0⟩ (fun _ => 0)
      (get_batch_info_model "track" [] outTransport 3).2.1 = ⟨[], [], [], 0⟩ := by
  have h := C10_empty_batch_no_request "track" outTransport 3 (by decide)
  exact ⟨h.1, h.2 ⟨[], [], [], 0⟩ (fun _ => 0)⟩

/-! ## Store-model helper lemmas -/

lemma any_append_left {α : Type} (l l' : List α) (p : α → Bool) (h : l.any p = true) :
    (l ++ l').any p = true := by
  simp [List.any_append, h]

lemma any_append_right {α : Type} (l l' : List α) (p : α → Bool) (h : l'.any p = true) :
    (l ++ l').any p = true := by
  simp [List.any_append, h]

lemma any_replaceByKey {α : Type} (p q : α → Bool) (x : α) (l : List α)
    (h : l.any q = true) (himp : ∀ y, q y = true → p y = true → q x = true) :
    (replaceByKey p x l).any q = true := by
  obtain ⟨y, hy, hqy⟩ := List.any_eq_true.mp h
  by_cases hpy : p y = true
  · exact any_append_right _ _ _ (by simp [himp y hqy hpy])
  · have hpy' : p y = false := Bool.eq_false_iff.mpr hpy
    exact any_append_left _ _ _
      (List.any_eq_true.mpr ⟨y, List.mem_filter.mpr ⟨hy, by simp [hpy']⟩, hqy⟩)

lemma replaceByKey_idem {α : Type} (p : α → Bool) (x : α) (l : List α) (hx : p x = true) :
    replaceByKey p x (replaceByKey p x l) = replaceByKey p x l := by
  unfold replaceByKey
  rw [List.filter_append, List.filter_filter]
  simp [hx]

lemma find?_append_of_some {α : Type} (l l' : List α) (p : α → Bool) (v : α)
    (h : l.find? p = some v) : (l ++ l').find? p = some v := by
  rw [List.find?_append, h]
  rfl

/-! ### No-op lemmas: each INSERT OR IGNORE is the identity when the row
is already present -/

lemma igTrackId_of_has (db : DB) (t : String) (h : hasTrackId db t = true) :
    insertOrIgnoreTrackId db t = db := by
  unfold insertOrIgnoreTrackId; rw [if_pos h]

lemma igAlbumId_of_has (db : DB) (a : String) (h : hasAlbumId db a = true) :
    insertOrIgnoreAlbumId db a = db := by
  unfold insertOrIgnoreAlbumId; rw [if_pos h]

lemma igArtistId_of_has (db : DB) (a : String) (h : hasArtistId db a = true) :
    insertOrIgnoreArtistId db a = db := by
  unfold insertOrIgnoreArtistId; rw [if_pos h]

lemma igTrackArtist_of_has (db : DB) (t a : String) (h : hasTrackArtist db t a = true) :
    insertOrIgnoreTrackArtist db t a = db := by
  unfold insertOrIgnoreTrackArtist; rw [if_pos h]

lemma igAlbumArtist_of_has (db : DB) (al a : String) (h : hasAlbumArtist db al a = true) :
    insertOrIgnoreAlbumArtist db al a = db := by
  unfold insertOrIgnoreAlbumArtist; rw [if_pos h]

lemma igArtistGenre_of_has (db : DB) (a : String) (g : ℕ) (h : hasArtistGenre db a g = true) :
    insertOrIgnoreArtistGenre db a g = db := by
  unfold insertOrIgnoreArtistGenre; rw [if_pos h]

lemma igGenre_of_has (db : DB) (g : String) (h : hasGenreName db g = true) :
    insertOrIgnoreGenre db g = db := by
  unfold insertOrIgnoreGenre; rw [if_pos h]

/-! ### Establishment lemmas: after each insert the row is present -/

lemma hasTrackId_after_igTrackId (db : DB) (t : String) :
    hasTrackId (insertOrIgnoreTrackId db t) t = true := by
  unfold insertOrIgnoreTrackId
  split
  · assumption
  · exact any_append_right _ _ _ (by simp [trackPlaceholder])

lemma hasAlbumId_after_igAlbumId (db : DB) (a : String) :
    hasAlbumId (insertOrIgnoreAlbumId db a) a = true := by
  unfold insertOrIgnoreAlbumId
  split
  · assumption
  · exact any_append_right _ _ _ (by simp [albumPlaceholder])

lemma hasArtistId_after_igArtistId (db : DB) (a : String) :
    hasArtistId (insertOrIgnoreArtistId db a) a = true := by
  unfold insertOrIgnoreArtistId
  split
  · assumption
  · exact any_append_right _ _ _ (by simp [artistPlaceholder])

lemma hasTrackArtist_after_ig (db : DB) (t a : String) :
    hasTrackArtist (insertOrIgnoreTrackArtist db t a) t a = true := by
  unfold insertOrIgnoreTrackArtist
  split
  · assumption
  · exact any_append_right _ _ _ (by simp)

lemma hasAlbumArtist_after_ig (db : DB) (al a : String) :
    hasAlbumArtist (insertOrIgnoreAlbumArtist db al a) al a = true := by
  unfold insertOrIgnoreAlbumArtist
  split
  · assumption
  · exact any_append_right _ _ _ (by simp)

lemma hasArtistGenre_after_ig (db : DB) (a : String) (g : ℕ) :
    hasArtistGenre (insertOrIgnoreArtistGenre db a g) a g = true := by
  unfold insertOrIgnoreArtistGenre
  split
  · assumption
  · exact any_append_right _ _ _ (by simp)

lemma hasGenreName_after_igGenre (db : DB) (g : String) :
    hasGenreName (insertOrIgnoreGenre db g) g = true := by
  unfold insertOrIgnoreGenre
  split
  · assumption
  · exact any_append_right _ _ _ (by simp)

lemma hasAreaKey_after_igArea (db : DB) (n ty : String) :
    hasAreaKey (insertOrIgnoreArea db n ty) n ty = true := by
  unfold insertOrIgnoreArea
  split
  · assumption
  · exact any_append_right _ _ _ (by simp)

lemma hasTrackId_after_replace (db : DB) (r : TrackRow) :
    hasTrackId (insertOrReplaceTrack db r) r.id = true :=
  any_append_right _ _ _ (by simp)

lemma hasAlbumId_after_replace (db : DB) (r : AlbumRow) :
    hasAlbumId (insertOrReplaceAlbum db r) r.id = true :=
  any_append_right _ _ _ (by simp)

lemma hasArtistId_after_replace (db : DB) (r : ArtistRow) :
    hasArtistId (insertOrReplaceArtist db r) r.id = true :=
  any_append_right _ _ _ (by simp)

/-! ### Lookup lemmas -/

lemma genreIdOf_isSome_of_hasName (db : DB) (g : String) (h : hasGenreName db g = true) :
    ∃ gid, genreIdOf db g = some gid := by
  unfold genreIdOf
  obtain ⟨x, hx, hpx⟩ := List.any_eq_true.mp h
  have hs : (db.genre.find? (fun q => q.2 == g)).isSome := by
    rw [List.find?_isSome]
    exact ⟨x, hx, hpx⟩
  obtain ⟨v, hv⟩ := Option.isSome_iff_exists.mp hs
  exact ⟨v.1, by rw [hv]; rfl⟩

lemma genreIdOf_hasGenreId (db : DB) (g : String) (gid : ℕ)
    (h : genreIdOf db g = some gid) : hasGenreId db gid = true := by
  unfold genreIdOf at h
  obtain ⟨q, hq, hmap⟩ := Option.map_eq_some'.mp h
  exact List.any_eq_true.mpr ⟨q, List.mem_of_find?_eq_some hq, by simp [hmap]⟩

lemma areaIdOf_isSome_of_hasKey (db : DB) (n ty : String) (h : hasAreaKey db n ty = true) :
    ∃ i, areaIdOf db n ty = some i := by
  unfold areaIdOf
  obtain ⟨x, hx, hpx⟩ := List.any_eq_true.mp h
  have hs : (db.area.find? (fun q => q.2.1 == n && q.2.2 == ty)).isSome := by
    rw [List.find?_isSome]
    exact ⟨x, hx, hpx⟩
  obtain ⟨v, hv⟩ := Option.isSome_iff_exists.mp hs
  exact ⟨v.1, by rw [hv]; rfl⟩

/-! ### Monotonicity: presence facts survive every persister statement -/

lemma hasTrackId_applyOp (db : DB) (op : DBOp) (x : String) (h : hasTrackId db x = true) :
    hasTrackId (applyOp db op) x = true := by
  cases op with
  | replaceTrack r =>
    show (replaceByKey (fun y => y.id == r.id) r db.track).any (fun y => y.id == x) = true
    refine any_replaceByKey _ _ _ _ h ?_
    intro y h1 h2
    rw [beq_iff_eq] at h1 h2 ⊢
    rw [← h2]
    exact h1
  | replaceAlbum r => exact h
  | replaceArtist r => exact h
  | igTrackId t =>
    simp only [applyOp]
    unfold insertOrIgnoreTrackId
    split
    · exact h
    · exact any_append_left _ _ _ h
  | igAlbumId a =>
    simp only [applyOp]
    unfold insertOrIgnoreAlbumId
    split <;> exact h
  | igArtistId a =>
    simp only [applyOp]
    unfold insertOrIgnoreArtistId
    split <;> exact h
  | igTrackArtist t a =>
    simp only [applyOp]
    unfold insertOrIgnoreTrackArtist
    split <;> exact h
  | igAlbumArtist al a =>
    simp only [applyOp]
    unfold insertOrIgnoreAlbumArtist
    split <;> exact h
  | igGenre g =>
    simp only [applyOp]
    unfold insertOrIgnoreGenre
    split <;> exact h
  | igArtistGenreByName a g =>
    simp only [applyOp]
    cases hg : genreIdOf db g with
    | none => exact h
    | some gid =>
      show hasTrackId (insertOrIgnoreArtistGenre db a gid) x = true
      unfold insertOrIgnoreArtistGenre
      split <;> exact h

lemma hasAlbumId_applyOp (db : DB) (op : DBOp) (x : String) (h : hasAlbumId db x = true) :
    hasAlbumId (applyOp db op) x = true := by
  cases op with
  | replaceAlbum r =>
    show (replaceByKey (fun y => y.id == r.id) r db.album).any (fun y => y.id == x) = true
    refine any_replaceByKey _ _ _ _ h ?_
    intro y h1 h2
    rw [beq_iff_eq] at h1 h2 ⊢
    rw [← h2]
    exact h1
  | replaceTrack r => exact h
  | replaceArtist r => exact h
  | igAlbumId a =>
    simp only [applyOp]
    unfold insertOrIgnoreAlbumId
    split
    · exact h
    · exact any_append_left _ _ _ h
  | igTrackId t =>
    simp only [applyOp]
    unfold insertOrIgnoreTrackId
    split <;> exact h
  | igArtistId a =>
    simp only [applyOp]
    unfold insertOrIgnoreArtistId
    split <;> exact h
  | igTrackArtist t a =>
    simp only [applyOp]
    unfold insertOrIgnoreTrackArtist
    split <;> exact h
  | igAlbumArtist al a =>
    simp only [applyOp]
    unfold insertOrIgnoreAlbumArtist
    split <;> exact h
  | igGenre g =>
    simp only [applyOp]
    unfold insertOrIgnoreGenre
    split <;> exact h
  | igArtistGenreByName a g =>
    simp only [applyOp]
    cases hg : genreIdOf db g with
    | none => exact h
    | some gid =>
      show hasAlbumId (insertOrIgnoreArtistGenre db a gid) x = true
      unfold insertOrIgnoreArtistGenre
      split <;> exact h

lemma hasArtistId_applyOp (db : DB) (op : DBOp) (x : String) (h : hasArtistId db x = true) :
    hasArtistId (applyOp db op) x = true := by
  cases op with
  | replaceArtist r =>
    show (replaceByKey (fun y => y.id == r.id) r db.artist).any (fun y => y.id == x) = true
    refine any_replaceByKey _ _ _ _ h ?_
    intro y h1 h2
    rw [beq_iff_eq] at h1 h2 ⊢
    rw [← h2]
    exact h1
  | replaceTrack r => exact h
  | replaceAlbum r => exact h
  | igArtistId a =>
    simp only [applyOp]
    unfold insertOrIgnoreArtistId
    split
    · exact h
    · exact any_append_left _ _ _ h
  | igTrackId t =>
    simp only [applyOp]
    unfold insertOrIgnoreTrackId
    split <;> exact h
  | igAlbumId a =>
    simp only [applyOp]
    unfold insertOrIgnoreAlbumId
    split <;> exact h
  | igTrackArtist t a =>
    simp only [applyOp]
    unfold insertOrIgnoreTrackArtist
    split <;> exact h
  | igAlbumArtist al a =>
    simp only [applyOp]
    unfold insertOrIgnoreAlbumArtist
    split <;> exact h
  | igGenre g =>
    simp only [applyOp]
    unfold insertOrIgnoreGenre
    split <;> exact h
  | igArtistGenreByName a g =>
    simp only [applyOp]
    cases hg : genreIdOf db g with
    | none => exact h
    | some gid =>
      show hasArtistId (insertOrIgnoreArtistGenre db a gid) x = true
      unfold insertOrIgnoreArtistGenre
      split <;> exact h

lemma hasGenreId_applyOp (db : DB) (op : DBOp) (x : ℕ) (h : hasGenreId db x = true) :
    hasGenreId (applyOp db op) x = true := by
  cases op with
  | replaceTrack r => exact h
  | replaceAlbum r => exact h
  | replaceArtist r => exact h
  | igTrackId t =>
    simp only [applyOp]
    unfold insertOrIgnoreTrackId
    split <;> exact h
  | igAlbumId a =>
    simp only [applyOp]
    unfold insertOrIgnoreAlbumId
    split <;> exact h
  | igArtistId a =>
    simp only [applyOp]
    unfold insertOrIgnoreArtistId
    split <;> exact h
  | igTrackArtist t a =>
    simp only [applyOp]
    unfold insertOrIgnoreTrackArtist
    split <;> exact h
  | igAlbumArtist al a =>
    simp only [applyOp]
    unfold insertOrIgnoreAlbumArtist
    split <;> exact h
  | igGenre g =>
    simp only [applyOp]
    unfold insertOrIgnoreGenre
    split
    · exact h
    · exact any_append_left _ _ _ h
  | igArtistGenreByName a g =>
    simp only [applyOp]
    cases hg : genreIdOf db g with
    | none => exact h
    | some gid =>
      show hasGenreId (insertOrIgnoreArtistGenre db a gid) x = true
      unfold insertOrIgnoreArtistGenre
      split <;> exact h

lemma hasGenreName_applyOp (db : DB) (op : DBOp) (x : String) (h : hasGenreName db x = true) :
    hasGenreName (applyOp db op) x = true := by
  cases op with
  | replaceTrack r => exact h
  | replaceAlbum r => exact h
  | replaceArtist r => exact h
  | igTrackId t =>
    simp only [applyOp]
    unfold insertOrIgnoreTrackId
    split <;> exact h
  | igAlbumId a =>
    simp only [applyOp]
    unfold insertOrIgnoreAlbumId
    split <;> exact h
  | igArtistId a =>
    simp only [applyOp]
    unfold insertOrIgnoreArtistId
    split <;> exact h
  | igTrackArtist t a =>
    simp only [applyOp]
    unfold insertOrIgnoreTrackArtist
    split <;> exact h
  | igAlbumArtist al a =>
    simp only [applyOp]
    unfold insertOrIgnoreAlbumArtist
    split <;> exact h
  | igGenre g =>
    simp only [applyOp]
    unfold insertOrIgnoreGenre
    split
    · exact h
    · exact any_append_left _ _ _ h
  | igArtistGenreByName a g =>
    simp only [applyOp]
    cases hg : genreIdOf db g with
    | none => exact h
    | some gid =>
      show hasGenreName (insertOrIgnoreArtistGenre db a gid) x = true
      unfold insertOrIgnoreArtistGenre
      split <;> exact h

lemma hasTrackArtist_applyOp (db : DB) (op : DBOp) (t a : String)
    (h : hasTrackArtist db t a = true) : hasTrackArtist (applyOp db op) t a = true := by
  cases op with
  | replaceTrack r => exact h
  | replaceAlbum r => exact h
  | replaceArtist r => exact h
  | igTrackId u =>
    simp only [applyOp]
    unfold insertOrIgnoreTrackId
    split <;> exact h
  | igAlbumId u =>
    simp only [applyOp]
    unfold insertOrIgnoreAlbumId
    split <;> exact h
  | igArtistId u =>
    simp only [applyOp]
    unfold insertOrIgnoreArtistId
    split <;> exact h
  | igTrackArtist u v =>
    simp only [applyOp]
    unfold insertOrIgnoreTrackArtist
    split
    · exact h
    · exact any_append_left _ _ _ h
  | igAlbumArtist u v =>
    simp only [applyOp]
    unfold insertOrIgnoreAlbumArtist
    split <;> exact h
  | igGenre g =>
    simp only [applyOp]
    unfold insertOrIgnoreGenre
    split <;> exact h
  | igArtistGenreByName u g =>
    simp only [applyOp]
    cases hg : genreIdOf db g with
    | none => exact h
    | some gid =>
      show hasTrackArtist (insertOrIgnoreArtistGenre db u gid) t a = true
      unfold insertOrIgnoreArtistGenre
      split <;> exact h

lemma hasAlbumArtist_applyOp (db : DB) (op : DBOp) (al a : String)
    (h : hasAlbumArtist db al a = true) : hasAlbumArtist (applyOp db op) al a = true := by
  cases op with
  | replaceTrack r => exact h
  | replaceAlbum r => exact h
  | replaceArtist r => exact h
  | igTrackId u =>
    simp only [applyOp]
    unfold insertOrIgnoreTrackId
    split <;> exact h
  | igAlbumId u =>
    simp only [applyOp]
    unfold insertOrIgnoreAlbumId
    split <;> exact h
  | igArtistId u =>
    simp only [applyOp]
    unfold insertOrIgnoreArtistId
    split <;> exact h
  | igTrackArtist u v =>
    simp only [applyOp]
    unfold insertOrIgnoreTrackArtist
    split <;> exact h
  | igAlbumArtist u v =>
    simp only [applyOp]
    unfold insertOrIgnoreAlbumArtist
    split
    · exact h
    · exact any_append_left _ _ _ h
  | igGenre g =>
    simp only [applyOp]
    unfold insertOrIgnoreGenre
    split <;> exact h
  | igArtistGenreByName u g =>
    simp only [applyOp]
    cases hg : genreIdOf db g with
    | none => exact h
    | some gid =>
      show hasAlbumArtist (insertOrIgnoreArtistGenre db u gid) al a = true
      unfold insertOrIgnoreArtistGenre
      split <;> exact h

lemma hasArtistGenre_applyOp (db : DB) (op : DBOp) (a : String) (g : ℕ)
    (h : hasArtistGenre db a g = true) : hasArtistGenre (applyOp db op) a g = true := by
  cases op with
  | replaceTrack r => exact h
  | replaceAlbum r => exact h
  | replaceArtist r => exact h
  | igTrackId u =>
    simp only [applyOp]
    unfold insertOrIgnoreTrackId
    split <;> exact h
  | igAlbumId u =>
    simp only [applyOp]
    unfold insertOrIgnoreAlbumId
    split <;> exact h
  | igArtistId u =>
    simp only [applyOp]
    unfold insertOrIgnoreArtistId
    split <;> exact h
  | igTrackArtist u v =>
    simp only [applyOp]
    unfold insertOrIgnoreTrackArtist
    split <;> exact h
  | igAlbumArtist u v =>
    simp only [applyOp]
    unfold insertOrIgnoreAlbumArtist
    split <;> exact h
  | igGenre g' =>
    simp only [applyOp]
    unfold insertOrIgnoreGenre
    split <;> exact h
  | igArtistGenreByName u g' =>
    simp only [applyOp]
    cases hg : genreIdOf db g' with
    | none => exact h
    | some gid =>
      show hasArtistGenre (insertOrIgnoreArtistGenre db u gid) a g = true
      unfold insertOrIgnoreArtistGenre
      split
      · exact h
      · exact any_append_left _ _ _ h

lemma genreIdOf_applyOp (db : DB) (op : DBOp) (g : String) (gid : ℕ)
    (h : genreIdOf db g = some gid) : genreIdOf (applyOp db op) g = some gid := by
  cases op with
  | replaceTrack r => exact h
  | replaceAlbum r => exact h
  | replaceArtist r => exact h
  | igTrackId u =>
    simp only [applyOp]
    unfold insertOrIgnoreTrackId
    split <;> exact h
  | igAlbumId u =>
    simp only [applyOp]
    unfold insertOrIgnoreAlbumId
    split <;> exact h
  | igArtistId u =>
    simp only [applyOp]
    unfold insertOrIgnoreArtistId
    split <;> exact h
  | igTrackArtist u v =>
    simp only [applyOp]
    unfold insertOrIgnoreTrackArtist
    split <;> exact h
  | igAlbumArtist u v =>
    simp only [applyOp]
    unfold insertOrIgnoreAlbumArtist
    split <;> exact h
  | igGenre g' =>
    simp only [applyOp]
    unfold insertOrIgnoreGenre
    split
    · exact h
    · show ((db.genre ++ [(db.genreNextId, g')]).find? (fun q => q.2 == g)).map (fun q => q.1) = some gid
      unfold genreIdOf at h
      obtain ⟨q, hq, hmap⟩ := Option.map_eq_some'.mp h
      rw [find?_append_of_some _ _ _ _ hq]
      simp [hmap]
  | igArtistGenreByName u g' =>
    simp only [applyOp]
    cases hg : genreIdOf db g' with
    | none => exact h
    | some gid' =>
      show genreIdOf (insertOrIgnoreArtistGenre db u gid') g = some gid
      unfold insertOrIgnoreArtistGenre
      split <;> exact h

/-! ### Fold-level preservation -/

lemma foldl_pres_hasTrackId (l : List DBOp) (d : DB) (x : String) (h : hasTrackId d x = true) :
    hasTrackId (l.foldl applyOp d) x = true := by
  induction l generalizing d with
  | nil => exact h
  | cons op rest ih => exact ih _ (hasTrackId_applyOp d op x h)

lemma foldl_pres_hasAlbumId (l : List DBOp) (d : DB) (x : String) (h : hasAlbumId d x = true) :
    hasAlbumId (l.foldl applyOp d) x = true := by
  induction l generalizing d with
  | nil => exact h
  | cons op rest ih => exact ih _ (hasAlbumId_applyOp d op x h)

lemma foldl_pres_hasArtistId (l : List DBOp) (d : DB) (x : String) (h : hasArtistId d x = true) :
    hasArtistId (l.foldl applyOp d) x = true := by
  induction l generalizing d with
  | nil => exact h
  | cons op rest ih => exact ih _ (hasArtistId_applyOp d op x h)

lemma foldl_pres_hasGenreId (l : List DBOp) (d : DB) (x : ℕ) (h : hasGenreId d x = true) :
    hasGenreId (l.foldl applyOp d) x = true := by
  induction l generalizing d with
  | nil => exact h
  | cons op rest ih => exact ih _ (hasGenreId_applyOp d op x h)

lemma foldl_pres_hasGenreName (l : List DBOp) (d : DB) (x : String)
    (h : hasGenreName d x = true) : hasGenreName (l.foldl applyOp d) x = true := by
  induction l generalizing d with
  | nil => exact h
  | cons op rest ih => exact ih _ (hasGenreName_applyOp d op x h)

lemma foldl_pres_hasTrackArtist (l : List DBOp) (d : DB) (t a : String)
    (h : hasTrackArtist d t a = true) : hasTrackArtist (l.foldl applyOp d) t a = true := by
  induction l generalizing d with
  | nil => exact h
  | cons op rest ih => exact ih _ (hasTrackArtist_applyOp d op t a h)

lemma foldl_pres_hasAlbumArtist (l : List DBOp) (d : DB) (al a : String)
    (h : hasAlbumArtist d al a = true) : hasAlbumArtist (l.foldl applyOp d) al a = true := by
  induction l generalizing d with
  | nil => exact h
  | cons op rest ih => exact ih _ (hasAlbumArtist_applyOp d op al a h)

lemma foldl_pres_hasArtistGenre (l : List DBOp) (d : DB) (a : String) (g : ℕ)
    (h : hasArtistGenre d a g = true) : hasArtistGenre (l.foldl applyOp d) a g = true := by
  induction l generalizing d with
  | nil => exact h
  | cons op rest ih => exact ih _ (hasArtistGenre_applyOp d op a g h)

lemma foldl_pres_genreIdOf (l : List DBOp) (d : DB) (g : String) (gid : ℕ)
    (h : genreIdOf d g = some gid) : genreIdOf (l.foldl applyOp d) g = some gid := by
  induction l generalizing d with
  | nil => exact h
  | cons op rest ih => exact ih _ (genreIdOf_applyOp d op g gid h)

/-! ### Projection lemmas for the pieces of each trace -/

lemma track_igTrackArtist (d : DB) (t a : String) :
    (insertOrIgnoreTrackArtist d t a).track = d.track := by
  unfold insertOrIgnoreTrackArtist; split <;> rfl

lemma track_igArtistId (d : DB) (a : String) :
    (insertOrIgnoreArtistId d a).track = d.track := by
  unfold insertOrIgnoreArtistId; split <;> rfl

lemma track_igAlbumId (d : DB) (a : String) :
    (insertOrIgnoreAlbumId d a).track = d.track := by
  unfold insertOrIgnoreAlbumId; split <;> rfl

lemma album_igAlbumArtist (d : DB) (al a : String) :
    (insertOrIgnoreAlbumArtist d al a).album = d.album := by
  unfold insertOrIgnoreAlbumArtist; split <;> rfl

lemma album_igArtistId (d : DB) (a : String) :
    (insertOrIgnoreArtistId d a).album = d.album := by
  unfold insertOrIgnoreArtistId; split <;> rfl

lemma album_igTrackId (d : DB) (t : String) :
    (insertOrIgnoreTrackId d t).album = d.album := by
  unfold insertOrIgnoreTrackId; split <;> rfl

lemma artist_igGenre (d : DB) (g : String) :
    (insertOrIgnoreGenre d g).artist = d.artist := by
  unfold insertOrIgnoreGenre; split <;> rfl

lemma artist_igArtistGenre (d : DB) (a : String) (g : ℕ) :
    (insertOrIgnoreArtistGenre d a g).artist = d.artist := by
  unfold insertOrIgnoreArtistGenre; split <;> rfl

lemma artist_byName (d : DB) (a g : String) :
    (applyOp d (.igArtistGenreByName a g)).artist = d.artist := by
  simp only [applyOp]
  cases hg : genreIdOf d g with
  | none => rfl
  | some gid => exact artist_igArtistGenre d a gid

lemma genreIdOf_igArtistGenre (d : DB) (a : String) (gid : ℕ) (g : String) :
    genreIdOf (insertOrIgnoreArtistGenre d a gid) g = genreIdOf d g := by
  unfold insertOrIgnoreArtistGenre; split <;> rfl

/-! ### The artist loop of dump_tracks -/

lemma artistOpsT_track (tid : String) (l : List String) :
    ∀ d : DB, ((artistOpsT tid l).foldl applyOp d).track = d.track := by
  induction l with
  | nil => intro d; rfl
  | cons a rest ih =>
    intro d
    rw [artistOpsT, List.foldl_cons, List.foldl_cons, ih]
    show (insertOrIgnoreArtistId (insertOrIgnoreTrackArtist d tid a) a).track = d.track
    rw [track_igArtistId, track_igTrackArtist]

lemma artistOpsT_establish (tid : String) (l : List String) :
    ∀ (d : DB), ∀ a ∈ l,
      hasTrackArtist ((artistOpsT tid l).foldl applyOp d) tid a = true ∧
      hasArtistId ((artistOpsT tid l).foldl applyOp d) a = true := by
  induction l with
  | nil => intro d a ha; exact absurd ha (List.not_mem_nil a)
  | cons b rest ih =>
    intro d a ha
    rw [artistOpsT, List.foldl_cons, List.foldl_cons]
    rcases List.mem_cons.mp ha with rfl | ha'
    · constructor
      · apply foldl_pres_hasTrackArtist
        apply hasTrackArtist_applyOp
        exact hasTrackArtist_after_ig d tid a
      · apply foldl_pres_hasArtistId
        exact hasArtistId_after_igArtistId (applyOp d (.igTrackArtist tid a)) a
    · exact ih _ a ha'

lemma mem_artistOpsT (tid : String) (l : List String) (op : DBOp) :
    op ∈ artistOpsT tid l → ∃ a ∈ l, op = .igTrackArtist tid a ∨ op = .igArtistId a := by
  induction l with
  | nil => intro h; exact absurd h (List.not_mem_nil op)
  | cons b rest ih =>
    intro h
    rw [artistOpsT] at h
    rcases List.mem_cons.mp h with rfl | h
    · exact ⟨b, List.mem_cons_self b rest, Or.inl rfl⟩
    rcases List.mem_cons.mp h with rfl | h
    · exact ⟨b, List.mem_cons_self b rest, Or.inr rfl⟩
    · obtain ⟨a, ha, hop⟩ := ih h
      exact ⟨a, List.mem_cons_of_mem b ha, hop⟩

/-! ### The artist loop of dump_albums -/

lemma artistOpsA_album (alid : String) (l : List String) :
    ∀ d : DB, ((artistOpsA alid l).foldl applyOp d).album = d.album := by
  induction l with
  | nil => intro d; rfl
  | cons a rest ih =>
    intro d
    rw [artistOpsA, List.foldl_cons, List.foldl_cons, ih]
    show (insertOrIgnoreArtistId (insertOrIgnoreAlbumArtist d alid a) a).album = d.album
    rw [album_igArtistId, album_igAlbumArtist]

lemma artistOpsA_establish (alid : String) (l : List String) :
    ∀ (d : DB), ∀ a ∈ l,
      hasAlbumArtist ((artistOpsA alid l).foldl applyOp d) alid a = true ∧
      hasArtistId ((artistOpsA alid l).foldl applyOp d) a = true := by
  induction l with
  | nil => intro d a ha; exact absurd ha (List.not_mem_nil a)
  | cons b rest ih =>
    intro d a ha
    rw [artistOpsA, List.foldl_cons, List.foldl_cons]
    rcases List.mem_cons.mp ha with rfl | ha'
    · constructor
      · apply foldl_pres_hasAlbumArtist
        apply hasAlbumArtist_applyOp
        exact hasAlbumArtist_after_ig d alid a
      · apply foldl_pres_hasArtistId
        exact hasArtistId_after_igArtistId (applyOp d (.igAlbumArtist alid a)) a
    · exact ih _ a ha'

lemma mem_artistOpsA (alid : String) (l : List String) (op : DBOp) :
    op ∈ artistOpsA alid l → ∃ a ∈ l, op = .igAlbumArtist alid a ∨ op = .igArtistId a := by
  induction l with
  | nil => intro h; exact absurd h (List.not_mem_nil op)
  | cons b rest ih =>
    intro h
    rw [artistOpsA] at h
    rcases List.mem_cons.mp h with rfl | h
    · exact ⟨b, List.mem_cons_self b rest, Or.inl rfl⟩
    rcases List.mem_cons.mp h with rfl | h
    · exact ⟨b, List.mem_cons_self b rest, Or.inr rfl⟩
    · obtain ⟨a, ha, hop⟩ := ih h
      exact ⟨a, List.mem_cons_of_mem b ha, hop⟩

/-! ### The track placeholder loop of dump_albums -/

lemma igTrackIdOps_album (ts : List String) :
    ∀ d : DB, ((ts.map DBOp.igTrackId).foldl applyOp d).album = d.album := by
  induction ts with
  | nil => intro d; rfl
  | cons t rest ih =>
    intro d
    rw [List.map_cons, List.foldl_cons, ih]
    exact album_igTrackId d t

lemma igTrackIdOps_establish (ts : List String) :
    ∀ (d : DB), ∀ t ∈ ts,
      hasTrackId ((ts.map DBOp.igTrackId).foldl applyOp d) t = true := by
  induction ts with
  | nil => intro d t ht; exact absurd ht (List.not_mem_nil t)
  | cons u rest ih =>
    intro d t ht
    rw [List.map_cons, List.foldl_cons]
    rcases List.mem_cons.mp ht with rfl | ht'
    · apply foldl_pres_hasTrackId
      exact hasTrackId_after_igTrackId d t
    · exact ih _ t ht'

/-! ### Fixpoint lemmas: re-running a statement on the persisted state -/

lemma foldl_applyOp_fix (l : List DBOp) (d : DB) (h : ∀ op ∈ l, applyOp d op = d) :
    l.foldl applyOp d = d := by
  induction l with
  | nil => rfl
  | cons op rest ih =>
    rw [List.foldl_cons, h op (List.mem_cons_self op rest)]
    exact ih (fun o ho => h o (List.mem_cons_of_mem op ho))

lemma insertOrReplaceTrack_fix (d : DB) (r : TrackRow) (l : List TrackRow)
    (hd : d.track = replaceByKey (fun y => y.id == r.id) r l) :
    insertOrReplaceTrack d r = d := by
  unfold insertOrReplaceTrack
  rw [hd, replaceByKey_idem _ _ _ (by simp), ← hd]

lemma insertOrReplaceAlbum_fix (d : DB) (r : AlbumRow) (l : List AlbumRow)
    (hd : d.album = replaceByKey (fun y => y.id == r.id) r l) :
    insertOrReplaceAlbum d r = d := by
  unfold insertOrReplaceAlbum
  rw [hd, replaceByKey_idem _ _ _ (by simp), ← hd]

lemma insertOrReplaceArtist_fix (d : DB) (r : ArtistRow) (l : List ArtistRow)
    (hd : d.artist = replaceByKey (fun y => y.id == r.id) r l) :
    insertOrReplaceArtist d r = d := by
  unfold insertOrReplaceArtist
  rw [hd, replaceByKey_idem _ _ _ (by simp), ← hd]

/-! ### Idempotence of dump_tracks on one record -/

lemma traceTrack_foldl (r : TrackRec) (db : DB) :
    (traceTrack r).foldl applyOp db =
      insertOrIgnoreAlbumId
        ((artistOpsT r.id r.artists).foldl applyOp
          (insertOrReplaceTrack db (trackRowOf r))) r.album_id := by
  unfold traceTrack
  rw [List.foldl_append]
  rfl

lemma traceTrack_track (r : TrackRec) (db : DB) :
    ((traceTrack r).foldl applyOp db).track =
      replaceByKey (fun y => y.id == (trackRowOf r).id) (trackRowOf r) db.track := by
  rw [traceTrack_foldl, track_igAlbumId, artistOpsT_track]
  rfl

lemma traceTrack_fix (r : TrackRec) (db : DB) :
    ∀ op ∈ traceTrack r,
      applyOp ((traceTrack r).foldl applyOp db) op = (traceTrack r).foldl applyOp db := by
  intro op hop
  have hTA : ∀ a ∈ r.artists,
      hasTrackArtist ((traceTrack r).foldl applyOp db) r.id a = true ∧
      hasArtistId ((traceTrack r).foldl applyOp db) a = true := by
    intro a ha
    rw [traceTrack_foldl]
    constructor
    · exact hasTrackArtist_applyOp _ (.igAlbumId r.album_id) _ _
        ((artistOpsT_establish r.id r.artists _ a ha).1)
    · exact hasArtistId_applyOp _ (.igAlbumId r.album_id) _
        ((artistOpsT_establish r.id r.artists _ a ha).2)
  have hAL : hasAlbumId ((traceTrack r).foldl applyOp db) r.album_id = true := by
    rw [traceTrack_foldl]
    exact hasAlbumId_after_igAlbumId _ r.album_id
  have hT := traceTrack_track r db
  rw [traceTrack] at hop
  rcases List.mem_append.mp hop with hop | hop
  · rcases List.mem_cons.mp hop with rfl | hop
    · exact insertOrReplaceTrack_fix _ _ _ hT
    · obtain ⟨a, ha, hcase⟩ := mem_artistOpsT r.id r.artists op hop
      rcases hcase with rfl | rfl
      · exact igTrackArtist_of_has _ _ _ (hTA a ha).1
      · exact igArtistId_of_has _ _ (hTA a ha).2
  · rcases List.mem_singleton.mp hop with rfl
    exact igAlbumId_of_has _ _ hAL

lemma dump_tracks_single_idem (r : TrackRec) (db : DB) :
    dump_tracks (dump_tracks db [r]) [r] = dump_tracks db [r] :=
  foldl_applyOp_fix _ _ (traceTrack_fix r db)

/-! ### Idempotence of dump_albums on one record -/

lemma traceAlbum_foldl (r : AlbumRec) (dn : String) (db : DB) :
    (traceAlbum r dn).foldl applyOp db =
      (r.track_ids.map DBOp.igTrackId).foldl applyOp
        ((artistOpsA r.id r.artists).foldl applyOp
          (insertOrReplaceAlbum db (albumRowOf r dn))) := by
  unfold traceAlbum
  rw [List.foldl_append]
  rfl

lemma traceAlbum_album (r : AlbumRec) (dn : String) (db : DB) :
    ((traceAlbum r dn).foldl applyOp db).album =
      replaceByKey (fun y => y.id == (albumRowOf r dn).id) (albumRowOf r dn) db.album := by
  rw [traceAlbum_foldl, igTrackIdOps_album, artistOpsA_album]
  rfl

lemma traceAlbum_fix (r : AlbumRec) (dn : String) (db : DB) :
    ∀ op ∈ traceAlbum r dn,
      applyOp ((traceAlbum r dn).foldl applyOp db) op =
        (traceAlbum r dn).foldl applyOp db := by
  intro op hop
  have hAA : ∀ a ∈ r.artists,
      hasAlbumArtist ((traceAlbum r dn).foldl applyOp db) r.id a = true ∧
      hasArtistId ((traceAlbum r dn).foldl applyOp db) a = true := by
    intro a ha
    rw [traceAlbum_foldl]
    constructor
    · apply foldl_pres_hasAlbumArtist
      exact (artistOpsA_establish r.id r.artists _ a ha).1
    · apply foldl_pres_hasArtistId
      exact (artistOpsA_establish r.id r.artists _ a ha).2
  have hTR : ∀ t ∈ r.track_ids,
      hasTrackId ((traceAlbum r dn).foldl applyOp db) t = true := by
    intro t ht
    rw [traceAlbum_foldl]
    exact igTrackIdOps_establish r.track_ids _ t ht
  have hA := traceAlbum_album r dn db
  rw [traceAlbum] at hop
  rcases List.mem_append.mp hop with hop | hop
  · rcases List.mem_cons.mp hop with rfl | hop
    · exact insertOrReplaceAlbum_fix _ _ _ hA
    · obtain ⟨a, ha, hcase⟩ := mem_artistOpsA r.id r.artists op hop
      rcases hcase with rfl | rfl
      · exact igAlbumArtist_of_has _ _ _ (hAA a ha).1
      · exact igArtistId_of_has _ _ (hAA a ha).2
  · obtain ⟨t, ht, rfl⟩ := List.mem_map.mp hop
    exact igTrackId_of_has _ _ (hTR t ht)

lemma dump_albums_single_idem (r : AlbumRec) (db db' : DB)
    (h : dump_albums db [r] = .ok db') : dump_albums db' [r] = .ok db' := by
  unfold dump_albums at h ⊢
  cases hn : normalize_release_date r.release_date with
  | error e =>
    rw [hn] at h
    exact absurd h (by simp)
  | ok dn =>
    rw [hn] at h
    have hdb' : (traceAlbum r dn).foldl applyOp db = db' := by
      simpa [dump_albums] using h
    rw [← hdb']
    have hfix := foldl_applyOp_fix _ _ (traceAlbum_fix r dn db)
    simp [dump_albums, hfix]

/-! ### Idempotence of dump_artists on one record -/

lemma genreIdOf_after_igGenre (d : DB) (g : String) :
    ∃ gid, genreIdOf (insertOrIgnoreGenre d g) g = some gid :=
  genreIdOf_isSome_of_hasName _ _ (hasGenreName_after_igGenre d g)

lemma genreOpsA_artist (aid : String) (l : List String) :
    ∀ d : DB, ((genreOpsA aid l).foldl applyOp d).artist = d.artist := by
  induction l with
  | nil => intro d; rfl
  | cons g rest ih =>
    intro d
    rw [genreOpsA, List.foldl_cons, List.foldl_cons, ih, artist_byName]
    exact artist_igGenre d g

lemma genreOpsA_establish (aid : String) (l : List String) :
    ∀ (d : DB), ∀ g ∈ l, ∃ gid,
      genreIdOf ((genreOpsA aid l).foldl applyOp d) g = some gid ∧
      hasArtistGenre ((genreOpsA aid l).foldl applyOp d) aid gid = true := by
  induction l with
  | nil => intro d g hg; exact absurd hg (List.not_mem_nil g)
  | cons b rest ih =>
    intro d g hg
    rw [genreOpsA, List.foldl_cons, List.foldl_cons]
    rcases List.mem_cons.mp hg with rfl | hg'
    · obtain ⟨gid, hgid⟩ := genreIdOf_after_igGenre d g
      have hd2 : applyOp (applyOp d (.igGenre g)) (.igArtistGenreByName aid g) =
          insertOrIgnoreArtistGenre (applyOp d (.igGenre g)) aid gid := by
        simp only [applyOp]
        rw [hgid]
      refine ⟨gid, ?_, ?_⟩
      · apply foldl_pres_genreIdOf
        rw [hd2, genreIdOf_igArtistGenre]
        exact hgid
      · apply foldl_pres_hasArtistGenre
        rw [hd2]
        exact hasArtistGenre_after_ig _ aid gid
    · exact ih _ g hg'

lemma genreOpsA_hasName (aid : String) (l : List String) :
    ∀ d : DB, ∀ g ∈ l, hasGenreName ((genreOpsA aid l).foldl applyOp d) g = true := by
  induction l with
  | nil => intro d g hg; exact absurd hg (List.not_mem_nil g)
  | cons b rest ih =>
    intro d g hg
    rw [genreOpsA, List.foldl_cons, List.foldl_cons]
    rcases List.mem_cons.mp hg with rfl | hg'
    · apply foldl_pres_hasGenreName
      apply hasGenreName_applyOp
      exact hasGenreName_after_igGenre d g
    · exact ih _ g hg'

lemma mem_genreOpsA (aid : String) (l : List String) (op : DBOp) :
    op ∈ genreOpsA aid l → ∃ g ∈ l, op = .igGenre g ∨ op = .igArtistGenreByName aid g := by
  induction l with
  | nil => intro h; exact absurd h (List.not_mem_nil op)
  | cons b rest ih =>
    intro h
    rw [genreOpsA] at h
    rcases List.mem_cons.mp h with rfl | h
    · exact ⟨b, List.mem_cons_self b rest, Or.inl rfl⟩
    rcases List.mem_cons.mp h with rfl | h
    · exact ⟨b, List.mem_cons_self b rest, Or.inr rfl⟩
    · obtain ⟨g, hg, hop⟩ := ih h
      exact ⟨g, List.mem_cons_of_mem b hg, hop⟩

lemma traceArtist_foldl (r : ArtistRec) (db : DB) :
    (traceArtist r).foldl applyOp db =
      (genreOpsA r.id r.genres).foldl applyOp
        (insertOrReplaceArtist db (artistRowOf r)) := rfl

lemma traceArtist_artist (r : ArtistRec) (db : DB) :
    ((traceArtist r).foldl applyOp db).artist =
      replaceByKey (fun y => y.id == (artistRowOf r).id) (artistRowOf r) db.artist := by
  rw [traceArtist_foldl, genreOpsA_artist]
  rfl

lemma traceArtist_fix (r : ArtistRec) (db : DB) :
    ∀ op ∈ traceArtist r,
      applyOp ((traceArtist r).foldl applyOp db) op = (traceArtist r).foldl applyOp db := by
  intro op hop
  have hGN : ∀ g ∈ r.genres, hasGenreName ((traceArtist r).foldl applyOp db) g = true := by
    intro g hg
    rw [traceArtist_foldl]
    exact genreOpsA_hasName r.id r.genres _ g hg
  have hGE : ∀ g ∈ r.genres, ∃ gid,
      genreIdOf ((traceArtist r).foldl applyOp db) g = some gid ∧
      hasArtistGenre ((traceArtist r).foldl applyOp db) r.id gid = true := by
    intro g hg
    rw [traceArtist_foldl]
    exact genreOpsA_establish r.id r.genres _ g hg
  have hA := traceArtist_artist r db
  rw [traceArtist] at hop
  rcases List.mem_cons.mp hop with rfl | hop
  · exact insertOrReplaceArtist_fix _ _ _ hA
  · obtain ⟨g, hg, hcase⟩ := mem_genreOpsA r.id r.genres op hop
    rcases hcase with rfl | rfl
    · exact igGenre_of_has _ _ (hGN g hg)
    · obtain ⟨gid, hgid, hpair⟩ := hGE g hg
      have hred : applyOp ((traceArtist r).foldl applyOp db) (.igArtistGenreByName r.id g) =
          insertOrIgnoreArtistGenre ((traceArtist r).foldl applyOp db) r.id gid := by
        simp only [applyOp]
        rw [hgid]
      rw [hred]
      exact igArtistGenre_of_has _ _ _ hpair

lemma dump_artists_single_idem (r : ArtistRec) (db : DB) :
    dump_artists (dump_artists db [r]) [r] = dump_artists db [r] :=
  foldl_applyOp_fix _ _ (traceArtist_fix r db)

/-! ## Claim C3 -/

/-- Claim C3: persisting one record twice via dump_tracks, dump_albums or
dump_artists leaves exactly the same store state — hence the same set of
entity rows and the same set of junction edges — as persisting it once.
For dump_albums, which can raise on a malformed release date, the
statement covers every successful persist. -/
theorem C3_persist_idempotent :
    (∀ (r : TrackRec) (db : DB),
      dump_tracks (dump_tracks db [r]) [r] = dump_tracks db [r]) ∧
    (∀ (r : ArtistRec) (db : DB),
      dump_artists (dump_artists db [r]) [r] = dump_artists db [r]) ∧
    (∀ (r : AlbumRec) (db db' : DB), dump_albums db [r] = .ok db' →
      dump_albums db' [r] = .ok db') :=
  ⟨fun r db => dump_tracks_single_idem r db,
   fun r db => dump_artists_single_idem r db,
   fun r db db' h => dump_albums_single_idem r db db' h⟩

/-- Witness for C3 on the concrete records tr0, ar0, al0 over the empty
store. -/
theorem C3_persist_idempotent_witness :
    dump_tracks (dump_tracks emptyDB [tr0]) [tr0] = dump_tracks emptyDB [tr0] ∧
    dump_artists (dump_artists emptyDB [ar0]) [ar0] = dump_artists emptyDB [ar0] ∧
    dump_albums ((dump_albums emptyDB [al0]).toOption.getD emptyDB) [al0] =
      .ok ((dump_albums emptyDB [al0]).toOption.getD emptyDB) := by
  refine ⟨C3_persist_idempotent.1 tr0 emptyDB, C3_persist_idempotent.2.1 ar0 emptyDB, ?_⟩
  exact C3_persist_idempotent.2.2 al0 emptyDB _ rfl

/-! ## Claim C4 -/

/-- Counterexample to claim C4: in dump_tracks the TrackArtist junction row
is inserted by the statement immediately BEFORE the Artist placeholder
(lines 499-508), so after the first two statements of the trace for tr0
the store holds the junction ("t1", "a1") while no Artist row a1 exists. -/
theorem C4_counterexample :
    noDanglingB emptyDB = true ∧
    noDanglingB (((traceTrack tr0).take 2).foldl applyOp emptyDB) = false := by
  refine ⟨by decide, by decide⟩

lemma weakB_iff (db : DB) :
    noDanglingWeakB db = true ↔
      (∀ q ∈ db.trackArtist, hasTrackId db q.1 = true) ∧
      (∀ q ∈ db.albumArtist, hasAlbumId db q.1 = true) ∧
      (∀ q ∈ db.artistGenre, hasArtistId db q.1 = true ∧ hasGenreId db q.2 = true) := by
  unfold noDanglingWeakB
  simp only [Bool.and_eq_true, List.all_eq_true]
  exact and_assoc

lemma strongB_iff (db : DB) :
    noDanglingB db = true ↔
      (∀ q ∈ db.trackArtist, hasTrackId db q.1 = true ∧ hasArtistId db q.2 = true) ∧
      (∀ q ∈ db.albumArtist, hasAlbumId db q.1 = true ∧ hasArtistId db q.2 = true) ∧
      (∀ q ∈ db.artistGenre, hasArtistId db q.1 = true ∧ hasGenreId db q.2 = true) := by
  unfold noDanglingB
  simp only [Bool.and_eq_true, List.all_eq_true]
  exact and_assoc

lemma weak_applyOp_no_junction (d : DB) (op : DBOp)
    (hTA : (applyOp d op).trackArtist = d.trackArtist)
    (hAA : (applyOp d op).albumArtist = d.albumArtist)
    (hAG : (applyOp d op).artistGenre = d.artistGenre)
    (h : noDanglingWeakB d = true) : noDanglingWeakB (applyOp d op) = true := by
  rw [weakB_iff] at h ⊢
  obtain ⟨h1, h2, h3⟩ := h
  refine ⟨?_, ?_, ?_⟩
  · intro q hq
    rw [hTA] at hq
    exact hasTrackId_applyOp d op q.1 (h1 q hq)
  · intro q hq
    rw [hAA] at hq
    exact hasAlbumId_applyOp d op q.1 (h2 q hq)
  · intro q hq
    rw [hAG] at hq
    exact ⟨hasArtistId_applyOp d op q.1 (h3 q hq).1, hasGenreId_applyOp d op q.2 (h3 q hq).2⟩

lemma junctions_replaceTrack (d : DB) (r : TrackRow) :
    (applyOp d (.replaceTrack r)).trackArtist = d.trackArtist ∧
    (applyOp d (.replaceTrack r)).albumArtist = d.albumArtist ∧
    (applyOp d (.replaceTrack r)).artistGenre = d.artistGenre := ⟨rfl, rfl, rfl⟩

lemma junctions_replaceAlbum (d : DB) (r : AlbumRow) :
    (applyOp d (.replaceAlbum r)).trackArtist = d.trackArtist ∧
    (applyOp d (.replaceAlbum r)).albumArtist = d.albumArtist ∧
    (applyOp d (.replaceAlbum r)).artistGenre = d.artistGenre := ⟨rfl, rfl, rfl⟩

lemma junctions_igTrackId (d : DB) (t : String) :
    (applyOp d (.igTrackId t)).trackArtist = d.trackArtist ∧
    (applyOp d (.igTrackId t)).albumArtist = d.albumArtist ∧
    (applyOp d (.igTrackId t)).artistGenre = d.artistGenre := by
  simp only [applyOp]
  unfold insertOrIgnoreTrackId
  split <;> exact ⟨rfl, rfl, rfl⟩

lemma junctions_igAlbumId (d : DB) (a : String) :
    (applyOp d (.igAlbumId a)).trackArtist = d.trackArtist ∧
    (applyOp d (.igAlbumId a)).albumArtist = d.albumArtist ∧
    (applyOp d (.igAlbumId a)).artistGenre = d.artistGenre := by
  simp only [applyOp]
  unfold insertOrIgnoreAlbumId
  split <;> exact ⟨rfl, rfl, rfl⟩

lemma junctions_igArtistId (d : DB) (a : String) :
    (applyOp d (.igArtistId a)).trackArtist = d.trackArtist ∧
    (applyOp d (.igArtistId a)).albumArtist = d.albumArtist ∧
    (applyOp d (.igArtistId a)).artistGenre = d.artistGenre := by
  simp only [applyOp]
  unfold insertOrIgnoreArtistId
  split <;> exact ⟨rfl, rfl, rfl⟩

lemma weak_replaceTrack (d : DB) (r : TrackRow) (h : noDanglingWeakB d = true) :
    noDanglingWeakB (applyOp d (.replaceTrack r)) = true :=
  weak_applyOp_no_junction _ _ rfl rfl rfl h

lemma weak_replaceAlbum (d : DB) (r : AlbumRow) (h : noDanglingWeakB d = true) :
    noDanglingWeakB (applyOp d (.replaceAlbum r)) = true :=
  weak_applyOp_no_junction _ _ rfl rfl rfl h

lemma weak_igTrackId (d : DB) (t : String) (h : noDanglingWeakB d = true) :
    noDanglingWeakB (applyOp d (.igTrackId t)) = true :=
  weak_applyOp_no_junction _ _ (junctions_igTrackId d t).1 (junctions_igTrackId d t).2.1
    (junctions_igTrackId d t).2.2 h

lemma weak_igAlbumId (d : DB) (a : String) (h : noDanglingWeakB d = true) :
    noDanglingWeakB (applyOp d (.igAlbumId a)) = true :=
  weak_applyOp_no_junction _ _ (junctions_igAlbumId d a).1 (junctions_igAlbumId d a).2.1
    (junctions_igAlbumId d a).2.2 h

lemma weak_igArtistId (d : DB) (a : String) (h : noDanglingWeakB d = true) :
    noDanglingWeakB (applyOp d (.igArtistId a)) = true :=
  weak_applyOp_no_junction _ _ (junctions_igArtistId d a).1 (junctions_igArtistId d a).2.1
    (junctions_igArtistId d a).2.2 h

lemma weak_igTrackArtist (d : DB) (t a : String) (h : noDanglingWeakB d = true)
    (ht : hasTrackId d t = true) :
    noDanglingWeakB (applyOp d (.igTrackArtist t a)) = true := by
  simp only [applyOp]
  unfold insertOrIgnoreTrackArtist
  split
  · exact h
  · rw [weakB_iff] at h ⊢
    obtain ⟨h1, h2, h3⟩ := h
    refine ⟨?_, ?_, ?_⟩
    · intro q hq
      rcases List.mem_append.mp hq with hq | hq
      · exact h1 q hq
      · rcases List.mem_singleton.mp hq with rfl
        exact ht
    · intro q hq
      exact h2 q hq
    · intro q hq
      exact h3 q hq

lemma weak_igAlbumArtist (d : DB) (al a : String) (h : noDanglingWeakB d = true)
    (hal : hasAlbumId d al = true) :
    noDanglingWeakB (applyOp d (.igAlbumArtist al a)) = true := by
  simp only [applyOp]
  unfold insertOrIgnoreAlbumArtist
  split
  · exact h
  · rw [weakB_iff] at h ⊢
    obtain ⟨h1, h2, h3⟩ := h
    refine ⟨?_, ?_, ?_⟩
    · intro q hq
      exact h1 q hq
    · intro q hq
      rcases List.mem_append.mp hq with hq | hq
      · exact h2 q hq
      · rcases List.mem_singleton.mp hq with rfl
        exact hal
    · intro q hq
      exact h3 q hq

/-! ### Weak integrity along every prefix of the track and album traces -/

lemma weak_prefix_tailAlbumId (alid : String) (d : DB) (h : noDanglingWeakB d = true) :
    ∀ pre suf : List DBOp, [DBOp.igAlbumId alid] = pre ++ suf →
      noDanglingWeakB (pre.foldl applyOp d) = true := by
  intro pre suf heq
  cases pre with
  | nil => exact h
  | cons p1 pre1 =>
    injection heq with h1 h2
    obtain ⟨rfl, -⟩ := List.append_eq_nil.mp h2.symm
    rw [← h1, List.foldl_cons]
    exact weak_igAlbumId d alid h

lemma weak_prefix_igTrackIdOps (ts : List String) :
    ∀ (d : DB), noDanglingWeakB d = true →
      ∀ pre suf : List DBOp, ts.map DBOp.igTrackId = pre ++ suf →
        noDanglingWeakB (pre.foldl applyOp d) = true := by
  induction ts with
  | nil =>
    intro d h pre suf heq
    have heq' : pre ++ suf = ([] : List DBOp) := heq.symm
    obtain ⟨rfl, -⟩ := List.append_eq_nil.mp heq'
    exact h
  | cons t rest ih =>
    intro d h pre suf heq
    rw [List.map_cons] at heq
    cases pre with
    | nil => exact h
    | cons p1 pre1 =>
      injection heq with h1 h2
      rw [← h1, List.foldl_cons]
      exact ih _ (weak_igTrackId d t h) pre1 suf h2

lemma weak_prefix_artistOpsT (tid : String) (tail : List DBOp)
    (htail : ∀ d : DB, noDanglingWeakB d = true → hasTrackId d tid = true →
      ∀ pre suf : List DBOp, tail = pre ++ suf →
        noDanglingWeakB (pre.foldl applyOp d) = true) :
    ∀ (l : List String) (d : DB), noDanglingWeakB d = true → hasTrackId d tid = true →
      ∀ pre suf : List DBOp, artistOpsT tid l ++ tail = pre ++ suf →
        noDanglingWeakB (pre.foldl applyOp d) = true := by
  intro l
  induction l with
  | nil =>
    intro d h ht pre suf heq
    exact htail d h ht pre suf heq
  | cons b rest ih =>
    intro d h ht pre suf heq
    rw [artistOpsT] at heq
    cases pre with
    | nil => exact h
    | cons p1 pre1 =>
      injection heq with h1 h2
      cases pre1 with
      | nil =>
        rw [← h1, List.foldl_cons]
        exact weak_igTrackArtist d tid b h ht
      | cons p2 pre2 =>
        injection h2 with h3 h4
        rw [← h1, ← h3, List.foldl_cons, List.foldl_cons]
        have hd1 := weak_igTrackArtist d tid b h ht
        have hd2 := weak_igArtistId (applyOp d (.igTrackArtist tid b)) b hd1
        have ht2 : hasTrackId
            (applyOp (applyOp d (.igTrackArtist tid b)) (.igArtistId b)) tid = true :=
          hasTrackId_applyOp _ _ _ (hasTrackId_applyOp _ _ _ ht)
        exact ih _ hd2 ht2 pre2 suf h4

lemma weak_prefix_artistOpsA (alid : String) (tail : List DBOp)
    (htail : ∀ d : DB, noDanglingWeakB d = true → hasAlbumId d alid = true →
      ∀ pre suf : List DBOp, tail = pre ++ suf →
        noDanglingWeakB (pre.foldl applyOp d) = true) :
    ∀ (l : List String) (d : DB), noDanglingWeakB d = true → hasAlbumId d alid = true →
      ∀ pre suf : List DBOp, artistOpsA alid l ++ tail = pre ++ suf →
        noDanglingWeakB (pre.foldl applyOp d) = true := by
  intro l
  induction l with
  | nil =>
    intro d h ht pre suf heq
    exact htail d h ht pre suf heq
  | cons b rest ih =>
    intro d h ht pre suf heq
    rw [artistOpsA] at heq
    cases pre with
    | nil => exact h
    | cons p1 pre1 =>
      injection heq with h1 h2
      cases pre1 with
      | nil =>
        rw [← h1, List.foldl_cons]
        exact weak_igAlbumArtist d alid b h ht
      | cons p2 pre2 =>
        injection h2 with h3 h4
        rw [← h1, ← h3, List.foldl_cons, List.foldl_cons]
        have hd1 := weak_igAlbumArtist d alid b h ht
        have hd2 := weak_igArtistId (applyOp d (.igAlbumArtist alid b)) b hd1
        have ht2 : hasAlbumId
            (applyOp (applyOp d (.igAlbumArtist alid b)) (.igArtistId b)) alid = true :=
          hasAlbumId_applyOp _ _ _ (hasAlbumId_applyOp _ _ _ ht)
        exact ih _ hd2 ht2 pre2 suf h4

lemma weak_prefix_traceTrack (r : TrackRec) (db : DB) (h : noDanglingWeakB db = true)
    (k : ℕ) : noDanglingWeakB (((traceTrack r).take k).foldl applyOp db) = true := by
  have hsplit : DBOp.replaceTrack (trackRowOf r) ::
      (artistOpsT r.id r.artists ++ [DBOp.igAlbumId r.album_id]) =
      (traceTrack r).take k ++ (traceTrack r).drop k :=
    (List.take_append_drop k (traceTrack r)).symm
  cases hpre : (traceTrack r).take k with
  | nil => exact h
  | cons p1 pre1 =>
    rw [hpre] at hsplit
    injection hsplit with h1 h2
    rw [← h1, List.foldl_cons]
    refine weak_prefix_artistOpsT r.id [DBOp.igAlbumId r.album_id]
      (fun d hd _ pre suf heq => weak_prefix_tailAlbumId r.album_id d hd pre suf heq)
      r.artists _ ?_ ?_ pre1 ((traceTrack r).drop k) h2
    · exact weak_replaceTrack db (trackRowOf r) h
    · exact hasTrackId_after_replace db (trackRowOf r)

lemma weak_prefix_traceAlbum (r : AlbumRec) (dn : String) (db : DB)
    (h : noDanglingWeakB db = true) (k : ℕ) :
    noDanglingWeakB (((traceAlbum r dn).take k).foldl applyOp db) = true := by
  have hsplit : DBOp.replaceAlbum (albumRowOf r dn) ::
      (artistOpsA r.id r.artists ++ r.track_ids.map DBOp.igTrackId) =
      (traceAlbum r dn).take k ++ (traceAlbum r dn).drop k :=
    (List.take_append_drop k (traceAlbum r dn)).symm
  cases hpre : (traceAlbum r dn).take k with
  | nil => exact h
  | cons p1 pre1 =>
    rw [hpre] at hsplit
    injection hsplit with h1 h2
    rw [← h1, List.foldl_cons]
    refine weak_prefix_artistOpsA r.id (r.track_ids.map DBOp.igTrackId)
      (fun d hd _ pre suf heq => weak_prefix_igTrackIdOps r.track_ids d hd pre suf heq)
      r.artists _ ?_ ?_ pre1 ((traceAlbum r dn).drop k) h2
    · exact weak_replaceAlbum db (albumRowOf r dn) h
    · exact hasAlbumId_after_replace db (albumRowOf r dn)

/-! ### Full-trace referential integrity -/

lemma junctions_igGenre (d : DB) (g : String) :
    (applyOp d (.igGenre g)).trackArtist = d.trackArtist ∧
    (applyOp d (.igGenre g)).albumArtist = d.albumArtist ∧
    (applyOp d (.igGenre g)).artistGenre = d.artistGenre := by
  simp only [applyOp]
  unfold insertOrIgnoreGenre
  split <;> exact ⟨rfl, rfl, rfl⟩

lemma ta_byName (d : DB) (a g : String) :
    (applyOp d (.igArtistGenreByName a g)).trackArtist = d.trackArtist := by
  simp only [applyOp]
  cases hg : genreIdOf d g with
  | none => rfl
  | some gid =>
    show (insertOrIgnoreArtistGenre d a gid).trackArtist = d.trackArtist
    unfold insertOrIgnoreArtistGenre
    split <;> rfl

lemma aa_byName (d : DB) (a g : String) :
    (applyOp d (.igArtistGenreByName a g)).albumArtist = d.albumArtist := by
  simp only [applyOp]
  cases hg : genreIdOf d g with
  | none => rfl
  | some gid =>
    show (insertOrIgnoreArtistGenre d a gid).albumArtist = d.albumArtist
    unfold insertOrIgnoreArtistGenre
    split <;> rfl

lemma mem_trackArtist_applyOp (d : DB) (op : DBOp) (q : String × String)
    (h : q ∈ (applyOp d op).trackArtist) :
    q ∈ d.trackArtist ∨ ∃ t a, op = .igTrackArtist t a ∧ q = (t, a) := by
  cases op with
  | igTrackArtist t a =>
    simp only [applyOp] at h
    unfold insertOrIgnoreTrackArtist at h
    split at h
    · exact Or.inl h
    · rcases List.mem_append.mp h with h | h
      · exact Or.inl h
      · exact Or.inr ⟨t, a, rfl, List.mem_singleton.mp h⟩
  | replaceTrack r => exact Or.inl h
  | replaceAlbum r => exact Or.inl h
  | replaceArtist r => exact Or.inl h
  | igTrackId t =>
    rw [(junctions_igTrackId d t).1] at h
    exact Or.inl h
  | igAlbumId a =>
    rw [(junctions_igAlbumId d a).1] at h
    exact Or.inl h
  | igArtistId a =>
    rw [(junctions_igArtistId d a).1] at h
    exact Or.inl h
  | igAlbumArtist al a =>
    simp only [applyOp] at h
    unfold insertOrIgnoreAlbumArtist at h
    split at h <;> exact Or.inl h
  | igGenre g =>
    rw [(junctions_igGenre d g).1] at h
    exact Or.inl h
  | igArtistGenreByName a g =>
    rw [ta_byName d a g] at h
    exact Or.inl h

lemma mem_albumArtist_applyOp (d : DB) (op : DBOp) (q : String × String)
    (h : q ∈ (applyOp d op).albumArtist) :
    q ∈ d.albumArtist ∨ ∃ al a, op = .igAlbumArtist al a ∧ q = (al, a) := by
  cases op with
  | igAlbumArtist al a =>
    simp only [applyOp] at h
    unfold insertOrIgnoreAlbumArtist at h
    split at h
    · exact Or.inl h
    · rcases List.mem_append.mp h with h | h
      · exact Or.inl h
      · exact Or.inr ⟨al, a, rfl, List.mem_singleton.mp h⟩
  | replaceTrack r => exact Or.inl h
  | replaceAlbum r => exact Or.inl h
  | replaceArtist r => exact Or.inl h
  | igTrackId t =>
    rw [(junctions_igTrackId d t).2.1] at h
    exact Or.inl h
  | igAlbumId a =>
    rw [(junctions_igAlbumId d a).2.1] at h
    exact Or.inl h
  | igArtistId a =>
    rw [(junctions_igArtistId d a).2.1] at h
    exact Or.inl h
  | igTrackArtist t a =>
    simp only [applyOp] at h
    unfold insertOrIgnoreTrackArtist at h
    split at h <;> exact Or.inl h
  | igGenre g =>
    rw [(junctions_igGenre d g).2.1] at h
    exact Or.inl h
  | igArtistGenreByName a g =>
    rw [aa_byName d a g] at h
    exact Or.inl h

lemma mem_trackArtist_foldl (l : List DBOp) (d : DB) (q : String × String)
    (h : q ∈ (l.foldl applyOp d).trackArtist) :
    q ∈ d.trackArtist ∨ ∃ t a, DBOp.igTrackArtist t a ∈ l ∧ q = (t, a) := by
  induction l generalizing d with
  | nil => exact Or.inl h
  | cons op rest ih =>
    rw [List.foldl_cons] at h
    rcases ih _ h with h' | ⟨t, a, hop, rfl⟩
    · rcases mem_trackArtist_applyOp d op q h' with h'' | ⟨t, a, rfl, rfl⟩
      · exact Or.inl h''
      · exact Or.inr ⟨t, a, List.mem_cons_self _ _, rfl⟩
    · exact Or.inr ⟨t, a, List.mem_cons_of_mem op hop, rfl⟩

lemma mem_albumArtist_foldl (l : List DBOp) (d : DB) (q : String × String)
    (h : q ∈ (l.foldl applyOp d).albumArtist) :
    q ∈ d.albumArtist ∨ ∃ al a, DBOp.igAlbumArtist al a ∈ l ∧ q = (al, a) := by
  induction l generalizing d with
  | nil => exact Or.inl h
  | cons op rest ih =>
    rw [List.foldl_cons] at h
    rcases ih _ h with h' | ⟨al, a, hop, rfl⟩
    · rcases mem_albumArtist_applyOp d op q h' with h'' | ⟨al, a, rfl, rfl⟩
      · exact Or.inl h''
      · exact Or.inr ⟨al, a, List.mem_cons_self _ _, rfl⟩
    · exact Or.inr ⟨al, a, List.mem_cons_of_mem op hop, rfl⟩

lemma ag_applyOp_of_ne (d : DB) (op : DBOp)
    (hop : ∀ a g, op ≠ .igArtistGenreByName a g) :
    (applyOp d op).artistGenre = d.artistGenre := by
  cases op with
  | igArtistGenreByName a g => exact absurd rfl (hop a g)
  | replaceTrack r => rfl
  | replaceAlbum r => rfl
  | replaceArtist r => rfl
  | igTrackId t => exact (junctions_igTrackId d t).2.2
  | igAlbumId a => exact (junctions_igAlbumId d a).2.2
  | igArtistId a => exact (junctions_igArtistId d a).2.2
  | igTrackArtist t a =>
    simp only [applyOp]
    unfold insertOrIgnoreTrackArtist
    split <;> rfl
  | igAlbumArtist al a =>
    simp only [applyOp]
    unfold insertOrIgnoreAlbumArtist
    split <;> rfl
  | igGenre g => exact (junctions_igGenre d g).2.2

lemma ag_foldl_of_ne (l : List DBOp) (d : DB)
    (h : ∀ op ∈ l, ∀ a g, op ≠ DBOp.igArtistGenreByName a g) :
    (l.foldl applyOp d).artistGenre = d.artistGenre := by
  induction l generalizing d with
  | nil => rfl
  | cons op rest ih =>
    rw [List.foldl_cons, ih _ (fun o ho => h o (List.mem_cons_of_mem op ho))]
    exact ag_applyOp_of_ne d op (h op (List.mem_cons_self op rest))

lemma traceTrack_ops_shape (r : TrackRec) (op : DBOp) (h : op ∈ traceTrack r) :
    op = .replaceTrack (trackRowOf r) ∨
    (∃ a ∈ r.artists, op = .igTrackArtist r.id a ∨ op = .igArtistId a) ∨
    op = .igAlbumId r.album_id := by
  rw [traceTrack] at h
  rcases List.mem_append.mp h with h | h
  · rcases List.mem_cons.mp h with rfl | h
    · exact Or.inl rfl
    · exact Or.inr (Or.inl (mem_artistOpsT _ _ _ h))
  · exact Or.inr (Or.inr (List.mem_singleton.mp h))

lemma traceAlbum_ops_shape (r : AlbumRec) (dn : String) (op : DBOp)
    (h : op ∈ traceAlbum r dn) :
    op = .replaceAlbum (albumRowOf r dn) ∨
    (∃ a ∈ r.artists, op = .igAlbumArtist r.id a ∨ op = .igArtistId a) ∨
    (∃ t ∈ r.track_ids, op = .igTrackId t) := by
  rw [traceAlbum] at h
  rcases List.mem_append.mp h with h | h
  · rcases List.mem_cons.mp h with rfl | h
    · exact Or.inl rfl
    · exact Or.inr (Or.inl (mem_artistOpsA _ _ _ h))
  · obtain ⟨t, ht, rfl⟩ := List.mem_map.mp h
    exact Or.inr (Or.inr ⟨t, ht, rfl⟩)

lemma traceTrack_facts (r : TrackRec) (db : DB) :
    hasTrackId ((traceTrack r).foldl applyOp db) r.id = true ∧
    ∀ a ∈ r.artists, hasArtistId ((traceTrack r).foldl applyOp db) a = true := by
  constructor
  · rw [traceTrack_foldl]
    exact hasTrackId_applyOp _ (.igAlbumId r.album_id) _
      (foldl_pres_hasTrackId _ _ _ (hasTrackId_after_replace db (trackRowOf r)))
  · intro a ha
    rw [traceTrack_foldl]
    exact hasArtistId_applyOp _ (.igAlbumId r.album_id) _
      ((artistOpsT_establish r.id r.artists _ a ha).2)

lemma traceAlbum_facts (r : AlbumRec) (dn : String) (db : DB) :
    hasAlbumId ((traceAlbum r dn).foldl applyOp db) r.id = true ∧
    ∀ a ∈ r.artists, hasArtistId ((traceAlbum r dn).foldl applyOp db) a = true := by
  constructor
  · rw [traceAlbum_foldl]
    apply foldl_pres_hasAlbumId
    exact foldl_pres_hasAlbumId _ _ _ (hasAlbumId_after_replace db (albumRowOf r dn))
  · intro a ha
    rw [traceAlbum_foldl]
    apply foldl_pres_hasArtistId
    exact (artistOpsA_establish r.id r.artists _ a ha).2

lemma strong_traceTrack (r : TrackRec) (db : DB) (h : noDanglingB db = true) :
    noDanglingB ((traceTrack r).foldl applyOp db) = true := by
  rw [strongB_iff] at h ⊢
  obtain ⟨h1, h2, h3⟩ := h
  obtain ⟨hTid, hAid⟩ := traceTrack_facts r db
  refine ⟨?_, ?_, ?_⟩
  · intro q hq
    rcases mem_trackArtist_foldl _ _ _ hq with hq' | ⟨t, a, hop, rfl⟩
    · exact ⟨foldl_pres_hasTrackId _ _ _ (h1 q hq').1,
        foldl_pres_hasArtistId _ _ _ (h1 q hq').2⟩
    · rcases traceTrack_ops_shape r _ hop with heq | ⟨a', ha', heq | heq⟩ | heq
      · exact absurd heq (by simp)
      · obtain ⟨rfl, rfl⟩ : t = r.id ∧ a = a' := by
          injection heq with e1 e2
          exact ⟨e1, e2⟩
        exact ⟨hTid, hAid _ ha'⟩
      · exact absurd heq (by simp)
      · exact absurd heq (by simp)
  · intro q hq
    rcases mem_albumArtist_foldl _ _ _ hq with hq' | ⟨al, a, hop, rfl⟩
    · exact ⟨foldl_pres_hasAlbumId _ _ _ (h2 q hq').1,
        foldl_pres_hasArtistId _ _ _ (h2 q hq').2⟩
    · exfalso
      rcases traceTrack_ops_shape r _ hop with heq | ⟨a', ha', heq | heq⟩ | heq <;>
        simp at heq
  · intro q hq
    rw [ag_foldl_of_ne] at hq
    · exact ⟨foldl_pres_hasArtistId _ _ _ (h3 q hq).1,
        foldl_pres_hasGenreId _ _ _ (h3 q hq).2⟩
    · intro op hop a g
      rcases traceTrack_ops_shape r op hop with heq | ⟨a', ha', heq | heq⟩ | heq <;>
        (subst heq; simp)

lemma strong_traceAlbum (r : AlbumRec) (dn : String) (db : DB)
    (h : noDanglingB db = true) :
    noDanglingB ((traceAlbum r dn).foldl applyOp db) = true := by
  rw [strongB_iff] at h ⊢
  obtain ⟨h1, h2, h3⟩ := h
  obtain ⟨hAlid, hAid⟩ := traceAlbum_facts r dn db
  refine ⟨?_, ?_, ?_⟩
  · intro q hq
    rcases mem_trackArtist_foldl _ _ _ hq with hq' | ⟨t, a, hop, rfl⟩
    · exact ⟨foldl_pres_hasTrackId _ _ _ (h1 q hq').1,
        foldl_pres_hasArtistId _ _ _ (h1 q hq').2⟩
    · exfalso
      rcases traceAlbum_ops_shape r dn _ hop with heq | ⟨a', ha', heq | heq⟩ | ⟨t', ht', heq⟩ <;>
        simp at heq
  · intro q hq
    rcases mem_albumArtist_foldl _ _ _ hq with hq' | ⟨al, a, hop, rfl⟩
    · exact ⟨foldl_pres_hasAlbumId _ _ _ (h2 q hq').1,
        foldl_pres_hasArtistId _ _ _ (h2 q hq').2⟩
    · rcases traceAlbum_ops_shape r dn _ hop with heq | ⟨a', ha', heq | heq⟩ | ⟨t', ht', heq⟩
      · exact absurd heq (by simp)
      · obtain ⟨rfl, rfl⟩ : al = r.id ∧ a = a' := by
          injection heq with e1 e2
          exact ⟨e1, e2⟩
        exact ⟨hAlid, hAid _ ha'⟩
      · exact absurd heq (by simp)
      · exact absurd heq (by simp)
  · intro q hq
    rw [ag_foldl_of_ne] at hq
    · exact ⟨foldl_pres_hasArtistId _ _ _ (h3 q hq).1,
        foldl_pres_hasGenreId _ _ _ (h3 q hq).2⟩
    · intro op hop a g
      rcases traceAlbum_ops_shape r dn op hop with heq | ⟨a', ha', heq | heq⟩ | ⟨t', ht', heq⟩ <;>
        (subst heq; simp)

/-- Claim C4 amended: in dump_tracks and dump_albums each TrackArtist or
AlbumArtist junction row is inserted by the statement immediately BEFORE
its Artist placeholder, so an intermediate state may transiently hold such
a junction whose artist id has no row yet; every other parent reference is
created no later than the rows that need it.  Concretely: along every
prefix of the statement trace the track/album side of every junction row
and both sides of every ArtistGenre row reference existing parents, and
after the complete persist of the record the store has no dangling
junction at all. -/
theorem C4_amended_parent_first :
    (∀ (r : TrackRec) (db : DB) (k : ℕ), noDanglingWeakB db = true →
      noDanglingWeakB (((traceTrack r).take k).foldl applyOp db) = true) ∧
    (∀ (r : AlbumRec) (dn : String) (db : DB) (k : ℕ), noDanglingWeakB db = true →
      noDanglingWeakB (((traceAlbum r dn).take k).foldl applyOp db) = true) ∧
    (∀ (r : TrackRec) (db : DB), noDanglingB db = true →
      noDanglingB ((traceTrack r).foldl applyOp db) = true) ∧
    (∀ (r : AlbumRec) (dn : String) (db : DB), noDanglingB db = true →
      noDanglingB ((traceAlbum r dn).foldl applyOp db) = true) :=
  ⟨fun r db k h => weak_prefix_traceTrack r db h k,
   fun r dn db k h => weak_prefix_traceAlbum r dn db h k,
   fun r db h => strong_traceTrack r db h,
   fun r dn db h => strong_traceAlbum r dn db h⟩

/-- Witness for the amended C4 on tr0 and al0 over the empty store. -/
theorem C4_amended_witness :
    noDanglingWeakB (((traceTrack tr0).take 2).foldl applyOp emptyDB) = true ∧
    noDanglingWeakB (((traceAlbum al0 "2001-05-01").take 2).foldl applyOp emptyDB) = true ∧
    noDanglingB ((traceTrack tr0).foldl applyOp emptyDB) = true ∧
    noDanglingB ((traceAlbum al0 "2001-05-01").foldl applyOp emptyDB) = true :=
  ⟨C4_amended_parent_first.1 tr0 emptyDB 2 (by decide),
   C4_amended_parent_first.2.1 al0 "2001-05-01" emptyDB 2 (by decide),
   C4_amended_parent_first.2.2.1 tr0 emptyDB (by decide),
   C4_amended_parent_first.2.2.2 al0 "2001-05-01" emptyDB (by decide)⟩

/-! ## Claim C9 -/

/-- Counterexample to claim C9: a fetched_data entry can carry an empty
genre list; save_artist_data_to_db then inserts no ArtistGenre edge for
the artist (while it does set the area), contradicting the claim for
arbitrary fetched_data mappings. -/
theorem C9_counterexample :
    hasAnyGenreEdge (save_artist_data_to_db dbArtistA1 [("a1", "Name")] fetched0) "a1" = false ∧
    artistAreaSetB (save_artist_data_to_db dbArtistA1 [("a1", "Name")] fetched0) "a1" = true := by
  refine ⟨by decide, by decide⟩

lemma hasAnyGenreEdge_of_hasArtistGenre (d : DB) (a : String) (g : ℕ)
    (h : hasArtistGenre d a g = true) : hasAnyGenreEdge d a = true := by
  obtain ⟨q, hq, hpq⟩ := List.any_eq_true.mp h
  rw [Bool.and_eq_true] at hpq
  exact List.any_eq_true.mpr ⟨q, hq, hpq.1⟩

lemma areaSet_igArea (d : DB) (n ty aid : String) :
    artistAreaSetB (insertOrIgnoreArea d n ty) aid = artistAreaSetB d aid := by
  unfold insertOrIgnoreArea; split <;> rfl

lemma areaSet_igGenre (d : DB) (g aid : String) :
    artistAreaSetB (insertOrIgnoreGenre d g) aid = artistAreaSetB d aid := by
  unfold insertOrIgnoreGenre; split <;> rfl

lemma areaSet_igArtistGenre (d : DB) (a : String) (g : ℕ) (aid : String) :
    artistAreaSetB (insertOrIgnoreArtistGenre d a g) aid = artistAreaSetB d aid := by
  unfold insertOrIgnoreArtistGenre; split <;> rfl

lemma areaSet_update (d : DB) (aid : String) (i : ℕ) (a' : String)
    (h : artistAreaSetB d a' = true) :
    artistAreaSetB (updateArtistArea d aid i) a' = true := by
  rw [artistAreaSetB, List.all_eq_true] at h ⊢
  intro row' hrow'
  obtain ⟨row, hrow, rfl⟩ := List.mem_map.mp hrow'
  by_cases hid : (row.id == aid) = true
  · simp [hid]
  · have hid' : (row.id == aid) = false := Bool.eq_false_iff.mpr hid
    simpa [hid'] using h row hrow

lemma areaSet_update_self (d : DB) (aid : String) (i : ℕ) :
    artistAreaSetB (updateArtistArea d aid i) aid = true := by
  rw [artistAreaSetB, List.all_eq_true]
  intro row' hrow'
  obtain ⟨row, hrow, rfl⟩ := List.mem_map.mp hrow'
  by_cases hid : (row.id == aid) = true
  · simp [hid]
  · have hid' : (row.id == aid) = false := Bool.eq_false_iff.mpr hid
    simp [hid']

lemma edge_igArea (d : DB) (n ty aid : String) :
    hasAnyGenreEdge (insertOrIgnoreArea d n ty) aid = hasAnyGenreEdge d aid := by
  unfold insertOrIgnoreArea; split <;> rfl

lemma edge_igGenre (d : DB) (g aid : String) :
    hasAnyGenreEdge (insertOrIgnoreGenre d g) aid = hasAnyGenreEdge d aid := by
  unfold insertOrIgnoreGenre; split <;> rfl

lemma edge_update (d : DB) (aid : String) (i : ℕ) (a' : String) :
    hasAnyGenreEdge (updateArtistArea d aid i) a' = hasAnyGenreEdge d a' := rfl

lemma edge_igArtistGenre_mono (d : DB) (a : String) (g : ℕ) (aid : String)
    (h : hasAnyGenreEdge d aid = true) :
    hasAnyGenreEdge (insertOrIgnoreArtistGenre d a g) aid = true := by
  unfold insertOrIgnoreArtistGenre
  split
  · exact h
  · exact any_append_left _ _ _ h

lemma edge_igArtistGenre_self (d : DB) (aid : String) (g : ℕ) :
    hasAnyGenreEdge (insertOrIgnoreArtistGenre d aid g) aid = true := by
  unfold insertOrIgnoreArtistGenre
  split
  · next hc => exact hasAnyGenreEdge_of_hasArtistGenre d aid g hc
  · exact any_append_right _ _ _ (by simp)

lemma save_genre_step_eq (aid : String) (dd : DB) (g : String) :
    ∃ gid, genreIdOf (insertOrIgnoreGenre dd g) g = some gid ∧
      save_genre_step aid dd g =
        insertOrIgnoreArtistGenre (insertOrIgnoreGenre dd g) aid gid := by
  obtain ⟨gid, hgid⟩ := genreIdOf_after_igGenre dd g
  refine ⟨gid, hgid, ?_⟩
  unfold save_genre_step
  rw [hgid]

lemma areaSet_genre_step (aid a' : String) (dd : DB) (g : String)
    (h : artistAreaSetB dd a' = true) :
    artistAreaSetB (save_genre_step aid dd g) a' = true := by
  obtain ⟨gid, hgid, heq⟩ := save_genre_step_eq aid dd g
  rw [heq, areaSet_igArtistGenre, areaSet_igGenre]
  exact h

lemma edge_genre_step_mono (aid a' : String) (dd : DB) (g : String)
    (h : hasAnyGenreEdge dd a' = true) :
    hasAnyGenreEdge (save_genre_step aid dd g) a' = true := by
  obtain ⟨gid, hgid, heq⟩ := save_genre_step_eq aid dd g
  rw [heq]
  apply edge_igArtistGenre_mono
  rw [edge_igGenre]
  exact h

lemma edge_genre_step_self (aid : String) (dd : DB) (g : String) :
    hasAnyGenreEdge (save_genre_step aid dd g) aid = true := by
  obtain ⟨gid, hgid, heq⟩ := save_genre_step_eq aid dd g
  rw [heq]
  exact edge_igArtistGenre_self _ _ _

lemma areaSet_genre_fold (aid a' : String) (gs : List String) :
    ∀ dd : DB, artistAreaSetB dd a' = true →
      artistAreaSetB (gs.foldl (save_genre_step aid) dd) a' = true := by
  induction gs with
  | nil => intro dd h; exact h
  | cons g rest ih =>
    intro dd h
    rw [List.foldl_cons]
    exact ih _ (areaSet_genre_step aid a' dd g h)

lemma edge_genre_fold_mono (aid a' : String) (gs : List String) :
    ∀ dd : DB, hasAnyGenreEdge dd a' = true →
      hasAnyGenreEdge (gs.foldl (save_genre_step aid) dd) a' = true := by
  induction gs with
  | nil => intro dd h; exact h
  | cons g rest ih =>
    intro dd h
    rw [List.foldl_cons]
    exact ih _ (edge_genre_step_mono aid a' dd g h)

lemma edge_genre_fold_self (aid : String) (gs : List String) (hne : gs ≠ []) :
    ∀ dd : DB, hasAnyGenreEdge (gs.foldl (save_genre_step aid) dd) aid = true := by
  cases gs with
  | nil => exact absurd rfl hne
  | cons g rest =>
    intro dd
    rw [List.foldl_cons]
    exact edge_genre_fold_mono aid aid rest _ (edge_genre_step_self aid dd g)

lemma save_one_artist_eq (fetched : List (String × ((String × String) × List String)))
    (d : DB) (p : String × String) :
    ∃ i, save_one_artist fetched d p =
      (fetched_entry fetched p.2).2.foldl (save_genre_step p.1)
        (updateArtistArea
          (insertOrIgnoreArea d (fetched_entry fetched p.2).1.1
            (fetched_entry fetched p.2).1.2) p.1 i) := by
  obtain ⟨i, hi⟩ := areaIdOf_isSome_of_hasKey
    (insertOrIgnoreArea d (fetched_entry fetched p.2).1.1 (fetched_entry fetched p.2).1.2)
    (fetched_entry fetched p.2).1.1 (fetched_entry fetched p.2).1.2
    (hasAreaKey_after_igArea d _ _)
  refine ⟨i, ?_⟩
  unfold save_one_artist
  rw [hi]

lemma save_one_artist_establish (fetched : List (String × ((String × String) × List String)))
    (d : DB) (p : String × String) (hg : (fetched_entry fetched p.2).2 ≠ []) :
    artistAreaSetB (save_one_artist fetched d p) p.1 = true ∧
    hasAnyGenreEdge (save_one_artist fetched d p) p.1 = true := by
  obtain ⟨i, heq⟩ := save_one_artist_eq fetched d p
  rw [heq]
  constructor
  · exact areaSet_genre_fold _ _ _ _ (areaSet_update_self _ _ _)
  · exact edge_genre_fold_self _ _ hg _

lemma save_one_artist_pres (fetched : List (String × ((String × String) × List String)))
    (d : DB) (p : String × String) (a' : String)
    (h1 : artistAreaSetB d a' = true) (h2 : hasAnyGenreEdge d a' = true) :
    artistAreaSetB (save_one_artist fetched d p) a' = true ∧
    hasAnyGenreEdge (save_one_artist fetched d p) a' = true := by
  obtain ⟨i, heq⟩ := save_one_artist_eq fetched d p
  rw [heq]
  constructor
  · apply areaSet_genre_fold
    apply areaSet_update
    rw [areaSet_igArea]
    exact h1
  · apply edge_genre_fold_mono
    rw [edge_update, edge_igArea]
    exact h2

lemma save_fold_pres (fetched : List (String × ((String × String) × List String)))
    (l : List (String × String)) (a' : String) :
    ∀ d : DB, artistAreaSetB d a' = true → hasAnyGenreEdge d a' = true →
      artistAreaSetB (l.foldl (save_one_artist fetched) d) a' = true ∧
      hasAnyGenreEdge (l.foldl (save_one_artist fetched) d) a' = true := by
  induction l with
  | nil => intro d h1 h2; exact ⟨h1, h2⟩
  | cons b rest ih =>
    intro d h1 h2
    rw [List.foldl_cons]
    obtain ⟨h1', h2'⟩ := save_one_artist_pres fetched d b a' h1 h2
    exact ih _ h1' h2'

lemma fetched_entry_ne_nil (fetched : List (String × ((String × String) × List String)))
    (hg : ∀ q ∈ fetched, q.2.2 ≠ []) (name : String) :
    (fetched_entry fetched name).2 ≠ [] := by
  unfold fetched_entry
  cases hf : fetched.find? (fun q => q.1 == name) with
  | none => simp
  | some q =>
    have hq := List.mem_of_find?_eq_some hf
    simpa using hg q hq

/-- Claim C9 amended: for every batch of artists and every fetched_data
mapping all of whose genre lists are nonempty (the sentinel substitution
((Unknown, Unknown), [Unknown]) guarantees this for names absent from
fetched_data, including after total fetch failure),
save_artist_data_to_db leaves, for every (id, name) pair of the batch,
every Artist row with that id carrying a non-NULL area_id, and at least
one ArtistGenre edge for that id — so such artists are complete for the
selection query rather than retried on a later pass. -/
theorem C9_amended_save_completes (batch : List (String × String))
    (fetched : List (String × ((String × String) × List String))) (db : DB)
    (hg : ∀ q ∈ fetched, q.2.2 ≠ []) :
    ∀ p ∈ batch,
      artistAreaSetB (save_artist_data_to_db db batch fetched) p.1 = true ∧
      hasAnyGenreEdge (save_artist_data_to_db db batch fetched) p.1 = true := by
  induction batch generalizing db with
  | nil => intro p hp; exact absurd hp (List.not_mem_nil p)
  | cons b rest ih =>
    intro p hp
    show artistAreaSetB (List.foldl (save_one_artist fetched) db (b :: rest)) p.1 = true ∧ _
    rw [List.foldl_cons]
    rcases List.mem_cons.mp hp with rfl | hp'
    · obtain ⟨h1, h2⟩ := save_one_artist_establish fetched db p
        (fetched_entry_ne_nil fetched hg p.2)
      exact save_fold_pres fetched rest p.1 _ h1 h2
    · exact ih _ p hp'

/-- Witness for the amended C9: one artist with one nonempty-genre
fetched entry gets its area set and a genre edge. -/
theorem C9_amended_witness :
    artistAreaSetB (save_artist_data_to_db dbArtistA1 [("a1", "Name")] fetched1) "a1" = true ∧
    hasAnyGenreEdge (save_artist_data_to_db dbArtistA1 [("a1", "Name")] fetched1) "a1" = true :=
  C9_amended_save_completes [("a1", "Name")] fetched1 dbArtistA1 (by decide)
    ("a1", "Name") (by decide)
